import Mathlib

/-!
# Enterprise Number Classification SDK: a verification development

A shallow embedding of `index.js` (the `checkEven` / `checkOdd` entry points, the
validation firewall `validateInput`, the recursive parity functions
`checkEvenInternal` / `checkOddInternal` and the digit based fallbacks
`checkEvenAlternative` / `checkOddAlternative`), followed by theorems about it.

JavaScript numbers are IEEE-754 binary64 values.  They are represented exactly:
the integer valued ones by their integer, the others by an odd numerator over a
power of two.  The call stack is represented by an explicit number of frames
that the recursive functions may still use.
-/

namespace NumberClassification

/-! ## JavaScript values -/

/-- A JavaScript number.  Every binary64 value has exactly one representation:
`int i` is the finite value equal to the integer `i` (`int 0` is `+0`), `negZero`
is `-0`, and `frac neg m e` is the finite non-integer `± m / 2 ^ e` with `m` odd
and `1 ≤ e`. -/
inductive JSNumber
  | nan
  | inf (neg : Bool)
  | negZero
  | int (i : Int)
  | frac (neg : Bool) (m : Nat) (e : Nat)
  deriving DecidableEq

/-- A JavaScript value.  Strings are sequences of characters.  An ordinary
object (one that is not a `Number` or `String` wrapper) is represented by what
the conversions `ToNumber` and `ToString` yield on it, `none` when the
conversion throws; the empty array is `obj (some (.int 0)) (some [])`. -/
inductive JSValue
  | undefined
  | null
  | bool (b : Bool)
  | num (x : JSNumber)
  | str (s : List Char)
  | symbol
  | obj (toNum : Option JSNumber) (toStr : Option (List Char))
  deriving DecidableEq

/-- The errors a call can raise.  `typeError` and `rangeError` carry their
message; `stackOverflow` is the error the engine raises when the call stack is
exhausted; `thrown` is an error raised by an object's own conversion method. -/
inductive JSError
  | typeError (msg : String)
  | rangeError (msg : String)
  | stackOverflow
  | thrown
  deriving DecidableEq

/-- Equality of the outcomes of a call (a result or an error) is decidable. -/
instance decEqOutcome {α : Type} [DecidableEq α] : DecidableEq (Except JSError α)
  | .ok a, .ok b =>
    if h : a = b then isTrue (congrArg Except.ok h)
    else isFalse (fun e => h (Except.ok.inj e))
  | .error a, .error b =>
    if h : a = b then isTrue (congrArg Except.error h)
    else isFalse (fun e => h (Except.error.inj e))
  | .ok _, .error _ => isFalse (fun e => nomatch e)
  | .error _, .ok _ => isFalse (fun e => nomatch e)

/-! ## Binary64 arithmetic -/

/-- The position of the highest set bit of `n` (zero when `n < 2`), found with at
most `fuel` halvings. -/
def log2Aux : Nat → Nat → Nat
  | 0, _ => 0
  | fuel + 1, n => if n < 2 then 0 else log2Aux fuel (n / 2) + 1

/-- The integer part of the binary logarithm of `n`. -/
def log2 (n : Nat) : Nat := log2Aux n n

/-- The nearest integer to `a` that has at most 53 significant bits, ties going
to the one whose 53-bit significand is even. -/
def roundNat (a : Nat) : Nat :=
  if a < 2 ^ 53 then a
  else
    let u := 2 ^ (log2 a - 52)
    let q := a / u
    let r := a % u
    if 2 * r < u then q * u
    else if u < 2 * r then (q + 1) * u
    else if q % 2 = 0 then q * u else (q + 1) * u

/-- The number value of the integer `i`: `i` rounded to binary64. -/
def ofInt (i : Int) : JSNumber :=
  let a := roundNat i.natAbs
  if 2 ^ 1024 ≤ a then .inf (decide (i < 0))
  else .int (if i < 0 then -(a : Int) else (a : Int))

/-- The number of times two divides `r`, counted with at most `fuel` steps. -/
def trailingZeros : Nat → Nat → Nat
  | 0, _ => 0
  | fuel + 1, r => if r ≠ 0 ∧ r % 2 = 0 then trailingZeros fuel (r / 2) + 1 else 0

/-- The zero of the given sign. -/
def zeroOf (neg : Bool) : JSNumber := if neg then .negZero else .int 0

/-- The number `± r * 2 ^ q`, for a significand `r ≤ 2 ^ 53` already rounded. -/
def mkFinite (neg : Bool) (r : Nat) (q : Int) : JSNumber :=
  if r = 0 then zeroOf neg
  else if 0 ≤ q then
    let v := r * 2 ^ q.toNat
    if 2 ^ 1024 ≤ v then .inf neg
    else .int (if neg then -(v : Int) else (v : Int))
  else
    let t := min (trailingZeros 64 r) (-q).toNat
    let m := r / 2 ^ t
    let e := (-q).toNat - t
    if e = 0 then .int (if neg then -(m : Int) else (m : Int)) else .frac neg m e

/-- The quotient `num / den` rounded to the nearest integer, ties to even. -/
def roundHalfEven (num den : Nat) : Nat :=
  let r := num / den
  let rem := num % den
  if 2 * rem < den then r
  else if den < 2 * rem then r + 1
  else if r % 2 = 0 then r else r + 1

/-- The binary exponent `E` of the positive rational `a / b`:
`2 ^ E ≤ a / b < 2 ^ (E + 1)`. -/
def floorLog2Rat (a b : Nat) : Int :=
  let d : Int := (log2 a : Int) - (log2 b : Int)
  let ge : Bool := if 0 ≤ d then decide (b * 2 ^ d.toNat ≤ a) else decide (b ≤ a * 2 ^ (-d).toNat)
  if ge then d else d - 1

/-- The rational `± a / b` (with `0 < b`) rounded to the nearest binary64 value,
ties to even; values too large become an infinity, values too small a zero. -/
def roundRat (neg : Bool) (a b : Nat) : JSNumber :=
  if a = 0 then zeroOf neg
  else
    let q : Int := max (floorLog2Rat a b - 52) (-1074)
    let num := if 0 ≤ q then a else a * 2 ^ (-q).toNat
    let den := if 0 ≤ q then b * 2 ^ q.toNat else b
    mkFinite neg (roundHalfEven num den) q

/-- A finite number as a signed numerator over a power of two, `(n, e)` standing
for `n / 2 ^ e`; `none` for `NaN` and the infinities. -/
def JSNumber.toDyadic : JSNumber → Option (Int × Nat)
  | .nan => none
  | .inf _ => none
  | .negZero => some (0, 0)
  | .int i => some (i, 0)
  | .frac neg m e => some (if neg then -(m : Int) else (m : Int), e)

/-- `Math.abs` on numbers. -/
def JSNumber.abs : JSNumber → JSNumber
  | .nan => .nan
  | .inf _ => .inf false
  | .negZero => .int 0
  | .int i => .int (i.natAbs : Int)
  | .frac _ m e => .frac false m e

/-- Unary minus on numbers. -/
def JSNumber.neg : JSNumber → JSNumber
  | .nan => .nan
  | .inf s => .inf (!s)
  | .negZero => .int 0
  | .int i => if i = 0 then .negZero else .int (-i)
  | .frac s m e => .frac (!s) m e

/-- The binary64 difference `x - y` (the `subtract` package applied to numbers). -/
def subtract (x y : JSNumber) : JSNumber :=
  match x, y with
  | .nan, _ => .nan
  | _, .nan => .nan
  | .inf a, .inf b => if a = b then .nan else .inf a
  | .inf a, _ => .inf a
  | _, .inf b => .inf (!b)
  | .negZero, .int 0 => .negZero
  | .int a, .int b => ofInt (a - b)
  | x, y =>
    match x.toDyadic, y.toDyadic with
    | some (n1, e1), some (n2, e2) =>
      let n : Int := n1 * 2 ^ e2 - n2 * 2 ^ e1
      roundRat (decide (n < 0)) n.natAbs (2 ^ (e1 + e2))
    | _, _ => .nan

/-! ## Number to string conversion (`Number::toString`, radix ten) -/

/-- The character of the decimal digit `d`. -/
def digitChar : Nat → Char
  | 0 => '0'
  | 1 => '1'
  | 2 => '2'
  | 3 => '3'
  | 4 => '4'
  | 5 => '5'
  | 6 => '6'
  | 7 => '7'
  | 8 => '8'
  | _ => '9'

/-- The decimal digits of `n` in front of `acc`, most significant first. -/
def decimalDigitsAux : Nat → Nat → List Char → List Char
  | 0, _, acc => acc
  | fuel + 1, n, acc =>
    if n < 10 then digitChar n :: acc
    else decimalDigitsAux fuel (n / 10) (digitChar (n % 10) :: acc)

/-- The decimal expansion of `n`, without leading zeros (`"0"` for zero). -/
def decimalDigits (n : Nat) : List Char := decimalDigitsAux (n + 1) n []

/-- The reals that round to a positive finite number, as numerators over the
common denominator `den`: the number itself is `x / den`, and a real rounds to
it when it lies between `lo / den` and `hi / den`, the two bounds included
exactly when `closed` holds (the significand is even). -/
structure RoundingInterval where
  x : Nat
  lo : Nat
  hi : Nat
  den : Nat
  closed : Bool

/-- The significand `M` and exponent `E` of a non-zero finite number of magnitude
`M * 2 ^ E`, with `2 ^ 52 ≤ M < 2 ^ 53`, or `M < 2 ^ 52` and `E = -1074`. -/
def significand : JSNumber → Nat × Int
  | .int i =>
    let a := i.natAbs
    let l := log2 a
    if 52 ≤ l then (a / 2 ^ (l - 52), ((l - 52 : Nat) : Int))
    else (a * 2 ^ (52 - l), -((52 - l : Nat) : Int))
  | .frac _ m e =>
    let E : Int := max ((log2 m : Int) - (e : Int) - 52) (-1074)
    (m * 2 ^ (-(e : Int) - E).toNat, E)
  | _ => (0, 0)

/-- The rounding interval of the number of significand `M` and exponent `E`. -/
def roundingInterval (M : Nat) (E : Int) : RoundingInterval :=
  let below := if M = 2 ^ 52 ∧ -1074 < E then 1 else 2
  let mul := if 2 ≤ E then 2 ^ (E - 2).toNat else 1
  let den := if 2 ≤ E then 1 else 2 ^ (2 - E).toNat
  { x := 4 * M * mul, lo := (4 * M - below) * mul, hi := (4 * M + 2) * mul,
    den := den, closed := decide (M % 2 = 0) }

/-- The least `j`, counted from the given one, with `den ≤ x * 10 ^ j`. -/
def leadingShift : Nat → Nat → Nat → Nat → Nat
  | 0, _, _, j => j
  | fuel + 1, x, den, j =>
    if den ≤ x * 10 ^ j then j else leadingShift fuel x den (j + 1)

/-- The decimal exponent `n` of the positive rational `x / den`:
`10 ^ (n - 1) ≤ x / den < 10 ^ n`. -/
def decimalExponent (x den : Nat) : Int :=
  if den ≤ x then ((decimalDigits (x / den)).length : Int)
  else 1 - (leadingShift 400 x den 1 : Int)

/-- The numerator, over the denominator of the interval scaled by the second
component, of the decimal `s * 10 ^ (n - k)`; the third component is the scale
to apply to the numerators of the interval. -/
def candidate (I : RoundingInterval) (n : Int) (k s : Nat) : Nat × Nat :=
  if n < k then (s * I.den, 10 ^ ((k : Int) - n).toNat)
  else (s * 10 ^ (n - (k : Int)).toNat * I.den, 1)

/-- Whether the decimal `s * 10 ^ (n - k)` rounds to the number of the interval. -/
def roundsTo (I : RoundingInterval) (n : Int) (k s : Nat) : Bool :=
  let c := candidate I n k s
  if I.closed then decide (I.lo * c.2 ≤ c.1 ∧ c.1 ≤ I.hi * c.2)
  else decide (I.lo * c.2 < c.1 ∧ c.1 < I.hi * c.2)

/-- The distance between the decimal `s * 10 ^ (n - k)` and the number itself. -/
def distance (I : RoundingInterval) (n : Int) (k s : Nat) : Nat :=
  let c := candidate I n k s
  if I.x * c.2 ≤ c.1 then c.1 - I.x * c.2 else I.x * c.2 - c.1

/-- The integer part of `(x / den) / 10 ^ (n - k)`. -/
def floorDigits (I : RoundingInterval) (n : Int) (k : Nat) : Nat :=
  if n < k then (I.x * 10 ^ ((k : Int) - n).toNat) / I.den
  else I.x / (I.den * 10 ^ (n - (k : Int)).toNat)

/-- The shortest digit string: the least number of digits `k`, starting from the
given one, for which some `s` makes `s * 10 ^ (n - k)` round to the number,
together with that `s` (the closest to the number, the even one on a tie). -/
def shortestAux : Nat → RoundingInterval → Int → Nat → Nat × Nat
  | 0, I, n, k => (floorDigits I n k, k)
  | fuel + 1, I, n, k =>
    let sf := floorDigits I n k
    let sc := sf + 1
    let okf := roundsTo I n k sf
    let okc := roundsTo I n k sc
    if okf && okc then
      if distance I n k sf < distance I n k sc then (sf, k)
      else if distance I n k sc < distance I n k sf then (sc, k)
      else if sf % 2 = 0 then (sf, k) else (sc, k)
    else if okf then (sf, k)
    else if okc then (sc, k)
    else shortestAux fuel I n (k + 1)

/-- The integers `s` and `n` of `Number::toString` for a non-zero finite number:
`s` has as few digits as possible, say `k`, and `s * 10 ^ (n - k)` rounds to the
number. -/
def shortestDecimal (v : JSNumber) : Nat × Int :=
  let I := roundingInterval (significand v).1 (significand v).2
  let n := decimalExponent I.x I.den
  let r := shortestAux 17 I n 1
  if r.1 = 10 ^ r.2 then (1, n + 1) else (r.1, n)

/-- The string `Number::toString` builds from the integers `s` and `n`, where
`k` is the number of digits of `s`. -/
def renderDecimal (s : Nat) (n : Int) : List Char :=
  let ds := decimalDigits s
  let k := ds.length
  if (k : Int) ≤ n ∧ n ≤ 21 then ds ++ List.replicate (n - (k : Int)).toNat '0'
  else if 0 < n ∧ n ≤ 21 then ds.take n.toNat ++ '.' :: ds.drop n.toNat
  else if -6 < n ∧ n ≤ 0 then '0' :: '.' :: (List.replicate (-n).toNat '0' ++ ds)
  else
    let sign := if 0 ≤ n - 1 then '+' else '-'
    let ex := decimalDigits (n - 1).natAbs
    if k = 1 then ds ++ 'e' :: sign :: ex
    else ds.take 1 ++ '.' :: (ds.drop 1 ++ 'e' :: sign :: ex)

/-- The string of a positive finite number.  An integer below `2 ^ 53` is
written with all its digits, which is its shortest digit string. -/
def unsignedToString (v : JSNumber) : List Char :=
  match v with
  | .int i =>
    if i.natAbs < 2 ^ 53 then decimalDigits i.natAbs
    else renderDecimal (shortestDecimal v).1 (shortestDecimal v).2
  | _ => renderDecimal (shortestDecimal v).1 (shortestDecimal v).2

/-- `Number::toString` with radix ten. -/
def numberToString : JSNumber → List Char
  | .nan => ['N', 'a', 'N']
  | .inf false => ['I', 'n', 'f', 'i', 'n', 'i', 't', 'y']
  | .inf true => ['-', 'I', 'n', 'f', 'i', 'n', 'i', 't', 'y']
  | .negZero => ['0']
  | .int i =>
    if i = 0 then ['0']
    else if i < 0 then '-' :: unsignedToString (.int i)
    else unsignedToString (.int i)
  | .frac neg m e =>
    if neg then '-' :: unsignedToString (.frac neg m e)
    else unsignedToString (.frac neg m e)

/-! ## String to number conversion (`StringToNumber`) and `parseInt` -/

/-- The white space and line terminator characters that `StringToNumber` and
`parseInt` strip. -/
def isStrWhiteSpace (c : Char) : Bool :=
  let n := c.toNat
  n = 9 || n = 10 || n = 11 || n = 12 || n = 13 || n = 32 || n = 160 || n = 5760
    || (8192 ≤ n && n ≤ 8202) || n = 8232 || n = 8233 || n = 8239 || n = 8287
    || n = 12288 || n = 65279

/-- The value of a decimal digit character. -/
def digitValue : Char → Option Nat
  | '0' => some 0
  | '1' => some 1
  | '2' => some 2
  | '3' => some 3
  | '4' => some 4
  | '5' => some 5
  | '6' => some 6
  | '7' => some 7
  | '8' => some 8
  | '9' => some 9
  | _ => none

/-- The value of a digit character in the given radix (two, eight or sixteen). -/
def radixDigitValue (radix : Nat) (c : Char) : Option Nat :=
  let v : Option Nat :=
    match digitValue c with
    | some d => some d
    | none =>
      let n := c.toNat
      if 97 ≤ n ∧ n ≤ 102 then some (n - 87)
      else if 65 ≤ n ∧ n ≤ 70 then some (n - 55)
      else none
  match v with
  | some d => if d < radix then some d else none
  | none => none

/-- Whether the character is a decimal digit. -/
def isDigit (c : Char) : Bool := (digitValue c).isSome

/-- The number written by a list of digits in the given radix. -/
def digitsValue (radix : Nat) (ds : List Char) : Nat :=
  ds.foldl (fun acc c => radix * acc + ((radixDigitValue radix c).getD 0)) 0

/-- The string without its leading and trailing white space. -/
def trim (s : List Char) : List Char :=
  ((s.dropWhile isStrWhiteSpace).reverse.dropWhile isStrWhiteSpace).reverse

/-- The exponent written after the `e` of a decimal literal. -/
def parseExponent : List Char → Option Int
  | '+' :: ds => if ds ≠ [] ∧ ds.all isDigit then some (digitsValue 10 ds : Int) else none
  | '-' :: ds => if ds ≠ [] ∧ ds.all isDigit then some (-(digitsValue 10 ds : Int)) else none
  | ds => if ds ≠ [] ∧ ds.all isDigit then some (digitsValue 10 ds : Int) else none

/-- The number of an unsigned decimal literal (`Infinity`, or digits with an
optional fraction and an optional exponent), negated when `neg` holds; `NaN`
when the string is not such a literal. -/
def parseUnsignedDecimal (neg : Bool) (s : List Char) : JSNumber :=
  if s = ['I', 'n', 'f', 'i', 'n', 'i', 't', 'y'] then .inf neg
  else
    let ip := s.takeWhile isDigit
    let r1 := s.dropWhile isDigit
    let fp := match r1 with
      | '.' :: t => t.takeWhile isDigit
      | _ => []
    let r2 := match r1 with
      | '.' :: t => t.dropWhile isDigit
      | _ => r1
    if ip = [] ∧ fp = [] then .nan
    else
      let ex : Option Int := match r2 with
        | [] => some 0
        | 'e' :: t => parseExponent t
        | 'E' :: t => parseExponent t
        | _ => none
      match ex with
      | none => .nan
      | some e =>
        let m := digitsValue 10 (ip ++ fp)
        let e10 : Int := e - (fp.length : Int)
        if 0 ≤ e10 then roundRat neg (m * 10 ^ e10.toNat) 1
        else roundRat neg m (10 ^ (-e10).toNat)

/-- The number of the digits of a binary, octal or hexadecimal literal. -/
def parseRadix (radix : Nat) (ds : List Char) : JSNumber :=
  if ds ≠ [] ∧ ds.all (fun c => (radixDigitValue radix c).isSome) then
    roundRat false (digitsValue radix ds) 1
  else .nan

/-- The abstract operation `StringToNumber`. -/
def stringToNumber (s : List Char) : JSNumber :=
  match trim s with
  | [] => .int 0
  | '0' :: 'x' :: r => parseRadix 16 r
  | '0' :: 'X' :: r => parseRadix 16 r
  | '0' :: 'o' :: r => parseRadix 8 r
  | '0' :: 'O' :: r => parseRadix 8 r
  | '0' :: 'b' :: r => parseRadix 2 r
  | '0' :: 'B' :: r => parseRadix 2 r
  | '+' :: r => parseUnsignedDecimal false r
  | '-' :: r => parseUnsignedDecimal true r
  | t => parseUnsignedDecimal false t

/-- The intrinsic `parseInt` applied to a string, with the radix `number10` of
the two call sites. -/
def parseInt10 (s : List Char) : JSNumber :=
  let t := s.dropWhile isStrWhiteSpace
  let neg := match t with
    | '-' :: _ => true
    | _ => false
  let r := match t with
    | '-' :: r => r
    | '+' :: r => r
    | _ => t
  let ds := r.takeWhile isDigit
  if ds = [] then .nan else roundRat neg (digitsValue 10 ds) 1

/-! ## Conversions of values -/

/-- The abstract operation `ToNumber`, which is what the intrinsic `Number`
called as a function computes on the values of the model. -/
def toNumber : JSValue → Except JSError JSNumber
  | .undefined => .ok .nan
  | .null => .ok (.int 0)
  | .bool b => .ok (.int (if b then 1 else 0))
  | .num x => .ok x
  | .str s => .ok (stringToNumber s)
  | .symbol => .error (.typeError "Cannot convert a Symbol value to a number")
  | .obj (some x) _ => .ok x
  | .obj none _ => .error .thrown

/-- The abstract operation `ToString`, which a template literal applies to the
value it interpolates. -/
def toStringValue : JSValue → Except JSError (List Char)
  | .undefined => .ok ['u', 'n', 'd', 'e', 'f', 'i', 'n', 'e', 'd']
  | .null => .ok ['n', 'u', 'l', 'l']
  | .bool b => .ok (if b then ['t', 'r', 'u', 'e'] else ['f', 'a', 'l', 's', 'e'])
  | .num x => .ok (numberToString x)
  | .str s => .ok s
  | .symbol => .error (.typeError "Cannot convert a Symbol value to a string")
  | .obj _ (some s) => .ok s
  | .obj _ none => .error .thrown

/-- The intrinsic `String` called as a function: `ToString`, except that a
symbol is rendered by its description instead of raising. -/
def stringOf : JSValue → Except JSError (List Char)
  | .symbol => .ok ['S', 'y', 'm', 'b', 'o', 'l', '(', ')']
  | v => toStringValue v

/-- The intrinsic `Math.abs`. -/
def mathAbs (v : JSValue) : Except JSError JSNumber :=
  match toNumber v with
  | .ok x => .ok x.abs
  | .error e => .error e

/-- Strict equality `===` of two numbers. -/
def strictEquals : JSNumber → JSNumber → Bool
  | .nan, _ => false
  | _, .nan => false
  | .negZero, .int 0 => true
  | .int 0, .negZero => true
  | x, y => decide (x = y)

/-- Whether `!value` is true: the value is `undefined`, `null`, `false`, a zero,
`NaN` or the empty string. -/
def isFalsy : JSValue → Bool
  | .undefined => true
  | .null => true
  | .bool b => !b
  | .num .nan => true
  | .num .negZero => true
  | .num (.int 0) => true
  | .str [] => true
  | _ => false

/-! ## The packages the module imports -/

/-- The options of the `is-actual-number` check. -/
structure IsNumberConfig where
  allowInfinite : Bool
  allowNumberStrings : Bool

/-- Modelled from the spec: the package `is-actual-number` (imported as
`isNumber`) is not among the sources.  A value of type number passes, an
infinity only when `allowInfinite` is set; `NaN` is of type number and passes
this check, which is what the test of `throwOnNaN` in `test/tests.js` requires.
A string passes only when `allowNumberStrings` is set and it converts to a
number other than `NaN`.  Every other value fails. -/
def isNumber (value : JSValue) (cfg : IsNumberConfig) : Bool :=
  match value with
  | .num (.inf _) => cfg.allowInfinite
  | .num _ => true
  | .str s =>
    cfg.allowNumberStrings && decide (trim s ≠ []) &&
      (match stringToNumber s with
        | .nan => false
        | .inf _ => cfg.allowInfinite
        | _ => true)
  | _ => false

/-- The package `@is-(unknown)/is-nan`: the value is the number `NaN`. -/
def isNaN : JSValue → Bool
  | .num .nan => true
  | _ => false

/-- The package `@stdlib/assert-is-finite`: the value is a number that is
neither `NaN` nor an infinity. -/
def isFinite : JSValue → Bool
  | .num .nan => false
  | .num (.inf _) => false
  | .num _ => true
  | _ => false

/-- The check `isNegativeZero` of the package `is-x`. -/
def isNegativeZero : JSValue → Bool
  | .num .negZero => true
  | _ => false

/-- The package `is-eq-zero`: the value is strictly equal to `0`. -/
def is0 : JSValue → Bool
  | .num x => strictEquals x (.int 0)
  | _ => false

/-- The package `is-eq-one`: the value is strictly equal to `1`. -/
def is1 : JSValue → Bool
  | .num x => strictEquals x (.int 1)
  | _ => false

/-- The intrinsic `Number.isInteger`: the value is a finite number with a zero
fractional part. -/
def numberIsInteger : JSValue → Bool
  | .num .negZero => true
  | .num (.int _) => true
  | _ => false

/-- The package `is-not-integer`. -/
def isNotInteger1 (value : JSValue) : Bool := !numberIsInteger value

/-- The negation of `Number.isInteger` of the package `util-x`. -/
def isNotInteger2 (value : JSValue) : Bool := !numberIsInteger value

/-- The function `isNotInteger` of `index.js`: zeros and falsy values go to the
first checker, the others to the second. -/
def isNotInteger (value : JSValue) : Bool :=
  if isNegativeZero value || is0 value || isFalsy value then isNotInteger1 value
  else isNotInteger2 value

/-- Modelled from the spec: the package `is-number-odd-or-even` is not among the
sources.  Its result says whether the value has a parity, which holds exactly
for the finite numbers with a zero fractional part. -/
def numberOddOrEven (value : JSValue) : Bool := numberIsInteger value

/-- The constant `@positive-numbers/one`. -/
def number1 : JSNumber := .int 1

/-! ## Options -/

/-- The options a caller passes (`ClassificationOptions` of `index.d.ts`): every
field may be absent. -/
structure ClassificationOptions where
  throwOnNonNumber : Option Bool := none
  throwOnNonInteger : Option Bool := none
  throwOnNonFinite : Option Bool := none
  throwOnNaN : Option Bool := none
  allowNumberStrings : Option Bool := none
  enableDebug : Option Bool := none
  deriving DecidableEq

/-- A complete record of options. -/
structure MergedOptions where
  throwOnNonNumber : Bool
  throwOnNonInteger : Bool
  throwOnNonFinite : Bool
  throwOnNaN : Bool
  allowNumberStrings : Bool
  enableDebug : Bool
  deriving DecidableEq

/-- The record `DEFAULT_OPTIONS`. -/
def DEFAULT_OPTIONS : MergedOptions :=
  { throwOnNonNumber := false, throwOnNonInteger := false, throwOnNonFinite := false,
    throwOnNaN := false, allowNumberStrings := false, enableDebug := false }

/-- The call `$ObjectAssign(\x7b\x7d, defaults, options)`: a fresh record with the
fields of `defaults`, overridden by the fields present in `options`; an absent
`options` argument changes nothing. -/
def objectAssign (defaults : MergedOptions) (options : Option ClassificationOptions) :
    MergedOptions :=
  match options with
  | none => defaults
  | some o =>
    { throwOnNonNumber := o.throwOnNonNumber.getD defaults.throwOnNonNumber,
      throwOnNonInteger := o.throwOnNonInteger.getD defaults.throwOnNonInteger,
      throwOnNonFinite := o.throwOnNonFinite.getD defaults.throwOnNonFinite,
      throwOnNaN := o.throwOnNaN.getD defaults.throwOnNaN,
      allowNumberStrings := o.allowNumberStrings.getD defaults.allowNumberStrings,
      enableDebug := o.enableDebug.getD defaults.enableDebug }

/-! ## The validation firewall -/

/-- The message of the error of the type gate. -/
def nonNumberMessage : String :=
  "[ENTERPRISE NUMBER CLASSIFICATION SDK]: Given parameter was not a number, and option to throw when given parameter is not a number is enabled."

/-- The message of the error of the NaN gate. -/
def nanMessage : String :=
  "[ENTERPRISE NUMBER CLASSIFICATION SDK]: Given parameter was NaN, and option to throw when given parameter is NaN is enabled."

/-- The message of the error of the finite gate. -/
def nonFiniteMessage : String :=
  "[ENTERPRISE NUMBER CLASSIFICATION SDK]: Given parameter was not finite, and option to throw when given parameter is not finite is enabled."

/-- The message of the error of the integer gate. -/
def nonIntegerMessage : String :=
  "[ENTERPRISE NUMBER CLASSIFICATION SDK]: Given parameter was not an integer, and option to throw when given parameter is not an integer is enabled."

/-- The debug branch of `validateInput`: the template literal converts the
value to a string, which can raise; the line itself goes to the console and is
not part of the result. -/
def debugLine (number : JSValue) (options : MergedOptions) : Except JSError Unit :=
  if options.enableDebug then
    match toStringValue number with
    | .ok _ => .ok ()
    | .error e => .error e
  else .ok ()

/-- The function `validateInput`: the type, NaN, finite and integer gates, in
that order.  A gate that fails raises its error when its flag is set and makes
the result `false` otherwise. -/
def validateInput (number : JSValue) (options : MergedOptions) : Except JSError Bool :=
  match debugLine number options with
  | .error e => .error e
  | .ok _ =>
    let isNum := isNumber number
      { allowInfinite := true, allowNumberStrings := options.allowNumberStrings }
    if !isNum then
      if options.throwOnNonNumber then .error (.typeError nonNumberMessage)
      else .ok false
    else if isNaN number then
      if options.throwOnNaN then .error (.rangeError nanMessage)
      else .ok false
    else if !(isFinite number) then
      if options.throwOnNonFinite then .error (.rangeError nonFiniteMessage)
      else .ok false
    else if isNotInteger number then
      if options.throwOnNonInteger then .error (.typeError nonIntegerMessage)
      else .ok false
    else .ok true

/-! ## The parity engine -/

/-- The record `ISNUMBER_CONFIG`. -/
def ISNUMBER_CONFIG : IsNumberConfig :=
  { allowInfinite := false, allowNumberStrings := false }

mutual

/-- The function `checkOddInternal`, run with `depth` free frames on the call
stack: every call takes one frame, and a call made with no frame left raises the
stack overflow error. -/
def checkOddInternal : Nat → JSValue → Except JSError Bool
  | 0, _ => .error .stackOverflow
  | depth + 1, _number =>
    if !(isNumber _number ISNUMBER_CONFIG) then .ok false
    else if !(numberOddOrEven _number) then .ok false
    else
      match mathAbs _number with
      | .error e => .error e
      | .ok number =>
        if is0 (.num number) then .ok false
        else if is1 (.num number) then .ok true
        else checkEvenInternal depth (.num (subtract number number1))

/-- The function `checkEvenInternal`, run with `depth` free frames on the call
stack. -/
def checkEvenInternal : Nat → JSValue → Except JSError Bool
  | 0, _ => .error .stackOverflow
  | depth + 1, _number =>
    if !(isNumber _number ISNUMBER_CONFIG) then .ok false
    else if !(numberOddOrEven _number) then .ok false
    else
      match mathAbs _number with
      | .error e => .error e
      | .ok number =>
        if is0 (.num number) then .ok true
        else if is1 (.num number) then .ok false
        else checkOddInternal depth (.num (subtract number number1))

end

/-- The call `$split(s, EMPTY_STRING)`: the array of the characters of the
string, each a string of length one. -/
def split (s : List Char) : List (List Char) := s.map (fun c => [c])

/-- The string of an array of strings: its elements separated by commas. -/
def arrayToString : List (List Char) → List Char
  | [] => []
  | [x] => x
  | x :: y :: rest => x ++ ',' :: arrayToString (y :: rest)

/-- The call `$slice(array)`: `String.prototype.slice` without bounds, whose
receiver is first converted to a string. -/
def slice (array : List (List Char)) : List Char := arrayToString array

/-- The call `$toReversed(s)` on a string: the array of its characters in
reverse order. -/
def toReversed (s : List Char) : List (List Char) := (s.map (fun c => [c])).reverse

/-- The `while2` loop of the fallbacks: while the array holds more than one
element, `pop` removes its last element.  `fuel` bounds the number of rounds. -/
def popLoop : Nat → List (List Char) → List (List Char)
  | 0, array => array
  | fuel + 1, array => if array.length > 1 then popLoop fuel array.dropLast else array

/-- The call `$parseInt(array, number10)`: the array is converted to a string,
which is parsed in radix ten. -/
def parseInt (array : List (List Char)) : JSNumber := parseInt10 (arrayToString array)

/-- The value `lastDigit` of both fallbacks: the string of the value is split
into characters, joined again by `$slice`, reversed, popped down to one element
and parsed. -/
def lastDigitOf (str : List Char) : JSNumber :=
  let numberAsArray := split str
  let reversedNumberAsArray := toReversed (slice numberAsArray)
  parseInt (popLoop reversedNumberAsArray.length reversedNumberAsArray)

/-- The function `checkOddAlternative`. -/
def checkOddAlternative (number : JSValue) : Except JSError Bool :=
  match stringOf number with
  | .error e => .error e
  | .ok str =>
    let lastDigit := lastDigitOf str
    if strictEquals lastDigit (.int 0) then .ok false
    else if strictEquals lastDigit (.int 1) then .ok true
    else if strictEquals lastDigit (.int 2) then .ok false
    else if strictEquals lastDigit (.int 3) then .ok true
    else if strictEquals lastDigit (.int 4) then .ok false
    else if strictEquals lastDigit (.int 5) then .ok true
    else if strictEquals lastDigit (.int 6) then .ok false
    else if strictEquals lastDigit (.int 7) then .ok true
    else if strictEquals lastDigit (.int 8) then .ok false
    else if strictEquals lastDigit (.int 9) then .ok true
    else .ok false

/-- The function `checkEvenAlternative`. -/
def checkEvenAlternative (number : JSValue) : Except JSError Bool :=
  match stringOf number with
  | .error e => .error e
  | .ok str =>
    let lastDigit := lastDigitOf str
    if strictEquals lastDigit (.int 0) then .ok true
    else if strictEquals lastDigit (.int 1) then .ok false
    else if strictEquals lastDigit (.int 2) then .ok true
    else if strictEquals lastDigit (.int 3) then .ok false
    else if strictEquals lastDigit (.int 4) then .ok true
    else if strictEquals lastDigit (.int 5) then .ok false
    else if strictEquals lastDigit (.int 6) then .ok true
    else if strictEquals lastDigit (.int 7) then .ok false
    else if strictEquals lastDigit (.int 8) then .ok true
    else if strictEquals lastDigit (.int 9) then .ok false
    else .ok false

/-! ## The public functions -/

/-- The package `attempt-statement`: the result of the body, or the result of
the rescue handler when the body raises. -/
def attempt (body rescue : Except JSError Bool) : Except JSError Bool :=
  match body with
  | .ok result => .ok result
  | .error _ => rescue

/-- The function `checkEven`, run with `depth` free frames on the call stack for
the recursion.  The options are merged over the defaults, the value is converted
to a number when `allowNumberStrings` is set, then validated, then classified by
the recursion, or by the fallback when the recursion raises. -/
def checkEven (depth : Nat) (number : JSValue) (options : Option ClassificationOptions) :
    Except JSError Bool :=
  let mergedOptions := objectAssign DEFAULT_OPTIONS options
  let coerced : Except JSError JSValue :=
    if mergedOptions.allowNumberStrings then
      match toNumber number with
      | .ok x => .ok (.num x)
      | .error e => .error e
    else .ok number
  match coerced with
  | .error e => .error e
  | .ok number =>
    match validateInput number mergedOptions with
    | .error e => .error e
    | .ok false => .ok false
    | .ok true => attempt (checkEvenInternal depth number) (checkEvenAlternative number)

/-- The function `checkOdd`, run with `depth` free frames on the call stack for
the recursion.  The options are merged over the defaults, the value is
validated, then converted to a number when `allowNumberStrings` is set, then
classified by the recursion, or by the fallback when the recursion raises. -/
def checkOdd (depth : Nat) (number : JSValue) (options : Option ClassificationOptions) :
    Except JSError Bool :=
  let mergedOptions := objectAssign DEFAULT_OPTIONS options
  match validateInput number mergedOptions with
  | .error e => .error e
  | .ok false => .ok false
  | .ok true =>
    let coerced : Except JSError JSValue :=
      if mergedOptions.allowNumberStrings then
        match toNumber number with
        | .ok x => .ok (.num x)
        | .error e => .error e
      else .ok number
    match coerced with
    | .error e => .error e
    | .ok number => attempt (checkOddInternal depth number) (checkOddAlternative number)

/-! ## Well-formed numbers -/

/-- Whether the representation stands for a binary64 value: an integer must be
its own rounding and lie below `2 ^ 1024`; a fraction must have an odd numerator
below `2 ^ 53` and an exponent between `1` and `1074`. -/
def JSNumber.isDouble : JSNumber → Bool
  | .int i => decide (roundNat i.natAbs = i.natAbs ∧ i.natAbs < 2 ^ 1024)
  | .frac _ m e => decide (m % 2 = 1 ∧ 1 ≤ e ∧ e ≤ 1074 ∧ m < 2 ^ 53)
  | _ => true

/-- Whether the number is finite with a zero fractional part. -/
def JSNumber.isInteger : JSNumber → Bool
  | .negZero => true
  | .int _ => true
  | _ => false

/-- The largest finite binary64 value. -/
def maxDouble : Nat := (2 ^ 53 - 1) * 2 ^ 971

/-! ## The gates of the firewall, as the specification words them -/

/-- The four gates of the firewall. -/
inductive Gate
  | type
  | nan
  | finite
  | integer
  deriving DecidableEq

/-- The first gate the value fails when the gates are tried in the order type,
NaN, finite, integer; `none` when the value passes the four of them. -/
def firstFailingGate (number : JSValue) (options : MergedOptions) : Option Gate :=
  if !(isNumber number
      { allowInfinite := true, allowNumberStrings := options.allowNumberStrings }) then
    some .type
  else if isNaN number then some .nan
  else if !(isFinite number) then some .finite
  else if isNotInteger number then some .integer
  else none

/-- The flag that governs a gate. -/
def Gate.flag : Gate → MergedOptions → Bool
  | .type, o => o.throwOnNonNumber
  | .nan, o => o.throwOnNaN
  | .finite, o => o.throwOnNonFinite
  | .integer, o => o.throwOnNonInteger

/-- The classified error of a gate. -/
def Gate.raised : Gate → JSError
  | .type => .typeError nonNumberMessage
  | .nan => .rangeError nanMessage
  | .finite => .rangeError nonFiniteMessage
  | .integer => .typeError nonIntegerMessage

/-- The policy of the specification: the outcome of the firewall is decided by
the first failing gate and by the flag of that gate alone. -/
def gatePolicy (number : JSValue) (options : MergedOptions) : Except JSError Bool :=
  match firstFailingGate number options with
  | none => .ok true
  | some g => if g.flag options then .error g.raised else .ok false

/-! ## Decimal renderings of integers -/

/-- The decimal rendering of an integer: its digits, after a minus sign when it
is negative. -/
def decimalRendering (k : Int) : List Char :=
  if k < 0 then '-' :: decimalDigits k.natAbs else decimalDigits k.natAbs

/-! ## The public functions with an explicit object store -/

/-- The store of the option records of a program, by address. -/
structure Store where
  objects : List ClassificationOptions

/-- The record at an address (the empty record at an address not in use). -/
def Store.read (s : Store) (a : Nat) : ClassificationOptions := s.objects.getD a {}

/-- The object literal `\x7b\x7d`: a new empty record, at a new address. -/
def Store.alloc (s : Store) : Store × Nat :=
  ({ objects := s.objects ++ [{}] }, s.objects.length)

/-- The fields of `target` after the fields present in `source` are copied onto
it. -/
def assignFields (target source : ClassificationOptions) : ClassificationOptions :=
  { throwOnNonNumber := source.throwOnNonNumber.orElse (fun _ => target.throwOnNonNumber),
    throwOnNonInteger := source.throwOnNonInteger.orElse (fun _ => target.throwOnNonInteger),
    throwOnNonFinite := source.throwOnNonFinite.orElse (fun _ => target.throwOnNonFinite),
    throwOnNaN := source.throwOnNaN.orElse (fun _ => target.throwOnNaN),
    allowNumberStrings :=
      source.allowNumberStrings.orElse (fun _ => target.allowNumberStrings),
    enableDebug := source.enableDebug.orElse (fun _ => target.enableDebug) }

/-- One source argument of `$ObjectAssign(target, ...)`: the record at the
address `target` is overwritten with the fields of the source; an `undefined`
source is skipped.  No other address is written. -/
def Store.assign (s : Store) (target : Nat) (source : Option Nat) : Store :=
  match source with
  | none => s
  | some a => { objects := s.objects.set target (assignFields (s.read target) (s.read a)) }

/-- The record `DEFAULT_OPTIONS` as an object of the store. -/
def defaultRecord : ClassificationOptions :=
  { throwOnNonNumber := some false, throwOnNonInteger := some false,
    throwOnNonFinite := some false, throwOnNaN := some false,
    allowNumberStrings := some false, enableDebug := some false }

/-- The flags read off a record: an absent field reads as `undefined`, which is
falsy. -/
def flagsOf (r : ClassificationOptions) : MergedOptions :=
  { throwOnNonNumber := r.throwOnNonNumber.getD false,
    throwOnNonInteger := r.throwOnNonInteger.getD false,
    throwOnNonFinite := r.throwOnNonFinite.getD false,
    throwOnNaN := r.throwOnNaN.getD false,
    allowNumberStrings := r.allowNumberStrings.getD false,
    enableDebug := r.enableDebug.getD false }

/-- The statement `$ObjectAssign(\x7b\x7d, DEFAULT_OPTIONS, options)` on the store:
a new record is allocated, then the record at `defaults` and the caller's record
at `options` (when the caller passed one) are assigned to it.  The result is the
new store and the address of `mergedOptions`. -/
def mergeOptions (s : Store) (defaults : Nat) (options : Option Nat) : Store × Nat :=
  let fresh := s.alloc
  (((fresh.1.assign fresh.2 (some defaults)).assign fresh.2 options), fresh.2)

/-- The body of `checkEven` after the options are merged. -/
def checkEvenBody (depth : Nat) (number : JSValue) (mergedOptions : MergedOptions) :
    Except JSError Bool :=
  let coerced : Except JSError JSValue :=
    if mergedOptions.allowNumberStrings then
      match toNumber number with
      | .ok x => .ok (.num x)
      | .error e => .error e
    else .ok number
  match coerced with
  | .error e => .error e
  | .ok number =>
    match validateInput number mergedOptions with
    | .error e => .error e
    | .ok false => .ok false
    | .ok true => attempt (checkEvenInternal depth number) (checkEvenAlternative number)

/-- The body of `checkOdd` after the options are merged. -/
def checkOddBody (depth : Nat) (number : JSValue) (mergedOptions : MergedOptions) :
    Except JSError Bool :=
  match validateInput number mergedOptions with
  | .error e => .error e
  | .ok false => .ok false
  | .ok true =>
    let coerced : Except JSError JSValue :=
      if mergedOptions.allowNumberStrings then
        match toNumber number with
        | .ok x => .ok (.num x)
        | .error e => .error e
      else .ok number
    match coerced with
    | .error e => .error e
    | .ok number => attempt (checkOddInternal depth number) (checkOddAlternative number)

/-- The function `checkEven` as a state transformer: the store after the call
and the outcome of the call.  The only statement that writes to the store is
the merge of the options; the rest of the body works on local values. -/
def checkEvenOn (s : Store) (defaults : Nat) (options : Option Nat) (depth : Nat)
    (number : JSValue) : Store × Except JSError Bool :=
  let merged := mergeOptions s defaults options
  (merged.1, checkEvenBody depth number (flagsOf (merged.1.read merged.2)))

/-- The function `checkOdd` as a state transformer. -/
def checkOddOn (s : Store) (defaults : Nat) (options : Option Nat) (depth : Nat)
    (number : JSValue) : Store × Except JSError Bool :=
  let merged := mergeOptions s defaults options
  (merged.1, checkOddBody depth number (flagsOf (merged.1.read merged.2)))

/-! ## The recursion as the specification words it -/

mutual

/-- The function `isEven(m)` of the specification, on a magnitude: `true` at
zero, `false` at one, and otherwise `isOdd(m - 1)`. -/
def specIsEven : Nat → Bool
  | 0 => true
  | 1 => false
  | m + 2 => specIsOdd (m + 1)

/-- The function `isOdd(m)` of the specification, on a magnitude: `false` at
zero, `true` at one, and otherwise `isEven(m - 1)`. -/
def specIsOdd : Nat → Bool
  | 0 => false
  | 1 => true
  | m + 2 => specIsEven (m + 1)

end

/-! ## The arguments of the nested calls of the recursion -/

/-- Whether a call of `checkEvenInternal` or `checkOddInternal` on the value goes
past the two guards at the top of the function (the value is a finite number;
the value has a parity). -/
def passesGuards (value : JSValue) : Bool :=
  isNumber value ISNUMBER_CONFIG && numberOddOrEven value

/-- The argument of the `k`-th nested call of the recursion started on a number:
the number itself for `k = 0`; then, from an argument that passes the two guards
and whose magnitude is neither zero nor one, `subtract(number, number1)` for the
magnitude `number`.  The result is `none` when the recursion has ended before
the `k`-th call.  Both functions compute the argument in this way. -/
def callArgument : Nat → JSNumber → Option JSNumber
  | 0, x => some x
  | k + 1, x =>
    match callArgument k x with
    | none => none
    | some v =>
      if !(passesGuards (.num v)) then none
      else if is0 (.num v.abs) || is1 (.num v.abs) then none
      else some (subtract v.abs number1)

/-! ## Theorems: binary64 arithmetic on integers -/

set_option exponentiation.threshold 1100

theorem log2Aux_eq_log (fuel n : Nat) (h : n ≤ fuel) : log2Aux fuel n = Nat.log 2 n := by
  induction fuel generalizing n with
  | zero =>
    have hn : n = 0 := by omega
    subst hn
    simp [log2Aux]
  | succ k ih =>
    unfold log2Aux
    by_cases h2 : n < 2
    · simp [h2, Nat.log_of_lt h2]
    · have hle : 2 ≤ n := by omega
      have hdiv : n / 2 ≤ k := by omega
      rw [if_neg h2, ih (n / 2) hdiv, Nat.log_of_one_lt_of_le (by norm_num) hle]

theorem log2_eq_log (n : Nat) : log2 n = Nat.log 2 n :=
  log2Aux_eq_log n n (le_refl n)

theorem pow_log2_le (n : Nat) (h : n ≠ 0) : 2 ^ log2 n ≤ n := by
  rw [log2_eq_log]
  exact Nat.pow_log_le_self 2 h

theorem lt_pow_log2_succ (n : Nat) : n < 2 ^ (log2 n + 1) := by
  rw [log2_eq_log]
  exact Nat.lt_pow_succ_log_self (by norm_num) n

theorem le_log2_of_pow_le (n k : Nat) (h : 2 ^ k ≤ n) : k ≤ log2 n := by
  by_contra hlt
  have h1 : log2 n + 1 ≤ k := by omega
  have h2 : 2 ^ (log2 n + 1) ≤ 2 ^ k := Nat.pow_le_pow_right (by norm_num) h1
  have h3 := lt_pow_log2_succ n
  omega

theorem log2_lt_of_lt_pow (n k : Nat) (hn : n ≠ 0) (h : n < 2 ^ k) : log2 n < k := by
  by_contra hge
  have h1 : k ≤ log2 n := by omega
  have h2 : 2 ^ k ≤ 2 ^ log2 n := Nat.pow_le_pow_right (by norm_num) h1
  have h3 := pow_log2_le n hn
  omega

theorem roundNat_of_lt (a : Nat) (h : a < 2 ^ 53) : roundNat a = a := by
  unfold roundNat
  rw [if_pos h]

/-- Above `2 ^ 53` the rounding of `a` is one of the two multiples of the unit
`2 ^ (log2 a - 52)` around `a`. -/
theorem roundNat_cases (a : Nat) (h : 2 ^ 53 ≤ a) :
    roundNat a = a / 2 ^ (log2 a - 52) * 2 ^ (log2 a - 52) ∨
      roundNat a = (a / 2 ^ (log2 a - 52) + 1) * 2 ^ (log2 a - 52) := by
  have hnot : ¬ a < 2 ^ 53 := by omega
  simp only [roundNat, if_neg hnot]
  split_ifs <;> simp

/-- The quotient of `a` by its unit is a 53-bit significand. -/
theorem significand_bounds (a : Nat) (h : 2 ^ 53 ≤ a) :
    2 ^ 52 ≤ a / 2 ^ (log2 a - 52) ∧ a / 2 ^ (log2 a - 52) < 2 ^ 53 := by
  have hpos : a ≠ 0 := by
    have : 0 < 2 ^ 53 := by norm_num
    omega
  have hl : 53 ≤ log2 a := le_log2_of_pow_le a 53 h
  have hu : 0 < 2 ^ (log2 a - 52) := pow_pos (by norm_num) _
  have e1 : 2 ^ log2 a = 2 ^ 52 * 2 ^ (log2 a - 52) := by
    rw [← pow_add]
    congr 1
    omega
  have e2 : 2 ^ (log2 a + 1) = 2 ^ 53 * 2 ^ (log2 a - 52) := by
    rw [← pow_add]
    congr 1
    omega
  have h1 := pow_log2_le a hpos
  have h2 := lt_pow_log2_succ a
  constructor
  · rw [Nat.le_div_iff_mul_le hu]
    omega
  · rw [Nat.div_lt_iff_lt_mul hu]
    omega

theorem maxDouble_lt : maxDouble < 2 ^ 1024 := by
  have e : (2 : Nat) ^ 1024 = 2 ^ 53 * 2 ^ 971 := by rw [← pow_add]
  have hu : 0 < (2 : Nat) ^ 971 := pow_pos (by norm_num) _
  rw [e]
  unfold maxDouble
  exact Nat.mul_lt_mul_of_pos_right (by norm_num) hu

theorem pow53_le_maxDouble : 2 ^ 53 ≤ maxDouble := by
  unfold maxDouble
  have hu : (2 : Nat) ^ 1 ≤ 2 ^ 971 := Nat.pow_le_pow_right (by norm_num) (by norm_num)
  calc 2 ^ 53 ≤ (2 ^ 53 - 1) * 2 ^ 1 := by norm_num
    _ ≤ (2 ^ 53 - 1) * 2 ^ 971 := Nat.mul_le_mul_left _ hu

theorem roundNat_ge (n : Nat) (h : 2 ^ 53 ≤ n) : 2 ^ 53 ≤ roundNat n := by
  have hb := significand_bounds n h
  have hl : 53 ≤ log2 n := le_log2_of_pow_le n 53 h
  have hu : (2 : Nat) ^ 1 ≤ 2 ^ (log2 n - 52) := Nat.pow_le_pow_right (by norm_num) (by omega)
  have hq : 2 ^ 53 ≤ n / 2 ^ (log2 n - 52) * 2 ^ (log2 n - 52) :=
    calc 2 ^ 53 = 2 ^ 52 * 2 ^ 1 := by norm_num
      _ ≤ n / 2 ^ (log2 n - 52) * 2 ^ (log2 n - 52) := Nat.mul_le_mul hb.1 hu
  rcases roundNat_cases n h with e | e
  · rw [e]
    exact hq
  · rw [e, Nat.add_mul]
    omega

theorem roundNat_le_maxDouble (n : Nat) (h : n < maxDouble) : roundNat n ≤ maxDouble := by
  by_cases hs : n < 2 ^ 53
  · rw [roundNat_of_lt n hs]
    omega
  · have h53 : 2 ^ 53 ≤ n := by omega
    have hb := significand_bounds n h53
    have hn0 : n ≠ 0 := by
      have : 0 < 2 ^ 53 := by norm_num
      omega
    have hL : log2 n < 1024 := log2_lt_of_lt_pow n 1024 hn0 (lt_trans h maxDouble_lt)
    have hl : 53 ≤ log2 n := le_log2_of_pow_le n 53 h53
    have hup : roundNat n ≤ (n / 2 ^ (log2 n - 52) + 1) * 2 ^ (log2 n - 52) := by
      rcases roundNat_cases n h53 with e | e
      · rw [e]
        exact Nat.mul_le_mul_right _ (Nat.le_succ _)
      · rw [e]
    refine le_trans hup ?_
    by_cases hlast : log2 n = 1023
    · have hu : log2 n - 52 = 971 := by omega
      rw [hu]
      rw [hu] at hb
      have hq : n / 2 ^ 971 < 2 ^ 53 - 1 := by
        rw [Nat.div_lt_iff_lt_mul (pow_pos (by norm_num) _)]
        exact h
      unfold maxDouble
      exact Nat.mul_le_mul_right _ hq
    · have hle : log2 n - 52 ≤ 970 := by omega
      have hu : (2 : Nat) ^ (log2 n - 52) ≤ 2 ^ 970 := Nat.pow_le_pow_right (by norm_num) hle
      have h1 : (n / 2 ^ (log2 n - 52) + 1) * 2 ^ (log2 n - 52) ≤ 2 ^ 53 * 2 ^ 970 :=
        Nat.mul_le_mul hb.2 hu
      refine le_trans h1 ?_
      unfold maxDouble
      have e : (2 : Nat) ^ 971 = 2 * 2 ^ 970 := by rw [← pow_succ']
      rw [e, ← Nat.mul_assoc]
      exact Nat.mul_le_mul_right _ (by norm_num)

theorem isDouble_int_le (i : Int) (h : (JSNumber.int i).isDouble = true) :
    i.natAbs ≤ maxDouble := by
  simp only [JSNumber.isDouble, decide_eq_true_eq] at h
  obtain ⟨hr, hlt⟩ := h
  by_cases hs : i.natAbs < 2 ^ 53
  · have := pow53_le_maxDouble
    omega
  · have h53 : 2 ^ 53 ≤ i.natAbs := by omega
    have hb := significand_bounds _ h53
    have hn0 : i.natAbs ≠ 0 := by
      have : 0 < 2 ^ 53 := by norm_num
      omega
    have hL : log2 i.natAbs < 1024 := log2_lt_of_lt_pow _ 1024 hn0 hlt
    have hupos : 0 < 2 ^ (log2 i.natAbs - 52) := pow_pos (by norm_num) _
    have hmul : i.natAbs = i.natAbs / 2 ^ (log2 i.natAbs - 52) * 2 ^ (log2 i.natAbs - 52) := by
      rcases roundNat_cases _ h53 with e | e
      · rw [← e, hr]
      · exfalso
        rw [hr] at e
        have hlt2 := Nat.lt_div_mul_add hupos (a := i.natAbs)
        rw [Nat.add_mul] at e
        omega
    rw [hmul]
    unfold maxDouble
    have hle : log2 i.natAbs - 52 ≤ 971 := by omega
    have hu : (2 : Nat) ^ (log2 i.natAbs - 52) ≤ 2 ^ 971 := Nat.pow_le_pow_right (by norm_num) hle
    exact Nat.mul_le_mul (by omega) hu

/-! ## Theorems: the recursion on integers -/

theorem strictEquals_int (a b : Int) :
    strictEquals (.int a) (.int b) = decide (a = b) := by
  unfold strictEquals
  split <;> simp_all

theorem subtract_int_one (a : Int) : subtract (.int a) number1 = ofInt (a - 1) := by
  simp [subtract, number1]

/-- The predecessor of a natural number of at least two, as the engine computes
it: the rounding of `n - 1`, which stays below the largest finite value. -/
theorem ofInt_pred (n : Nat) (h2 : 2 ≤ n) (hm : n ≤ maxDouble) :
    ofInt ((n : Int) - 1) = .int ((roundNat (n - 1) : Nat) : Int) ∧
      roundNat (n - 1) ≤ maxDouble := by
  have hle : roundNat (n - 1) ≤ maxDouble := roundNat_le_maxDouble (n - 1) (by omega)
  have habs : ((n : Int) - 1).natAbs = n - 1 := by omega
  have hlt := maxDouble_lt
  have hnot : ¬ 2 ^ 1024 ≤ roundNat (n - 1) := by omega
  have hpos : ¬ ((n : Int) - 1 < 0) := by omega
  refine ⟨?_, hle⟩
  unfold ofInt
  simp only [habs]
  rw [if_neg hnot, if_neg hpos]

theorem checkEvenInternal_zero (v : JSValue) :
    checkEvenInternal 0 v = .error .stackOverflow := by
  unfold checkEvenInternal
  rfl

theorem checkOddInternal_zero (v : JSValue) :
    checkOddInternal 0 v = .error .stackOverflow := by
  unfold checkOddInternal
  rfl

theorem checkEvenInternal_int (d : Nat) (i : Int) :
    checkEvenInternal (d + 1) (.num (.int i)) =
      if i.natAbs = 0 then .ok true
      else if i.natAbs = 1 then .ok false
      else checkOddInternal d (.num (ofInt ((i.natAbs : Int) - 1))) := by
  rw [checkEvenInternal]
  simp only [isNumber, ISNUMBER_CONFIG, numberOddOrEven, numberIsInteger, mathAbs, toNumber,
    JSNumber.abs, is0, is1, strictEquals_int, subtract_int_one]
  simp only [Bool.not_true, Bool.false_eq_true, if_false, decide_eq_true_eq]
  have e0 : ((i.natAbs : Int) = 0) = (i.natAbs = 0) := by
    apply propext
    omega
  have e1 : ((i.natAbs : Int) = 1) = (i.natAbs = 1) := by
    apply propext
    omega
  simp only [e0, e1]

theorem checkOddInternal_int (d : Nat) (i : Int) :
    checkOddInternal (d + 1) (.num (.int i)) =
      if i.natAbs = 0 then .ok false
      else if i.natAbs = 1 then .ok true
      else checkEvenInternal d (.num (ofInt ((i.natAbs : Int) - 1))) := by
  rw [checkOddInternal]
  simp only [isNumber, ISNUMBER_CONFIG, numberOddOrEven, numberIsInteger, mathAbs, toNumber,
    JSNumber.abs, is0, is1, strictEquals_int, subtract_int_one]
  simp only [Bool.not_true, Bool.false_eq_true, if_false, decide_eq_true_eq]
  have e0 : ((i.natAbs : Int) = 0) = (i.natAbs = 0) := by
    apply propext
    omega
  have e1 : ((i.natAbs : Int) = 1) = (i.natAbs = 1) := by
    apply propext
    omega
  simp only [e0, e1]

theorem checkEvenInternal_negZero (d : Nat) :
    checkEvenInternal (d + 1) (.num .negZero) = .ok true := by
  rw [checkEvenInternal]
  simp [isNumber, ISNUMBER_CONFIG, numberOddOrEven, numberIsInteger, mathAbs, toNumber,
    JSNumber.abs, is0, strictEquals_int]

theorem checkOddInternal_negZero (d : Nat) :
    checkOddInternal (d + 1) (.num .negZero) = .ok false := by
  rw [checkOddInternal]
  simp [isNumber, ISNUMBER_CONFIG, numberOddOrEven, numberIsInteger, mathAbs, toNumber,
    JSNumber.abs, is0, strictEquals_int]

/-- The recursion only looks at the magnitude of an integer. -/
theorem checkEvenInternal_natAbs (d : Nat) (i : Int) :
    checkEvenInternal d (.num (.int i)) = checkEvenInternal d (.num (.int (i.natAbs : Int))) := by
  cases d with
  | zero => rw [checkEvenInternal_zero, checkEvenInternal_zero]
  | succ d => rw [checkEvenInternal_int, checkEvenInternal_int, Int.natAbs_ofNat]

theorem checkOddInternal_natAbs (d : Nat) (i : Int) :
    checkOddInternal d (.num (.int i)) = checkOddInternal d (.num (.int (i.natAbs : Int))) := by
  cases d with
  | zero => rw [checkOddInternal_zero, checkOddInternal_zero]
  | succ d => rw [checkOddInternal_int, checkOddInternal_int, Int.natAbs_ofNat]

/-- With the same number of free frames, the two recursive functions either
both exhaust the stack or return opposite results. -/
theorem internal_paired (d n : Nat) (hm : n ≤ maxDouble) :
    (checkEvenInternal d (.num (.int (n : Int))) = .error .stackOverflow ∧
        checkOddInternal d (.num (.int (n : Int))) = .error .stackOverflow) ∨
      ∃ b, checkEvenInternal d (.num (.int (n : Int))) = .ok b ∧
        checkOddInternal d (.num (.int (n : Int))) = .ok (!b) := by
  induction d generalizing n with
  | zero =>
    left
    exact ⟨checkEvenInternal_zero _, checkOddInternal_zero _⟩
  | succ d ih =>
    rw [checkEvenInternal_int, checkOddInternal_int, Int.natAbs_ofNat]
    by_cases h0 : n = 0
    · right
      exact ⟨true, by simp [h0], by simp [h0]⟩
    · by_cases h1 : n = 1
      · right
        exact ⟨false, by simp [h1], by simp [h1]⟩
      · have hp := ofInt_pred n (by omega) hm
        rw [if_neg h0, if_neg h1, if_neg h0, if_neg h1, hp.1]
        rcases ih (roundNat (n - 1)) hp.2 with ⟨he, ho⟩ | ⟨b, he, ho⟩
        · left
          exact ⟨ho, he⟩
        · right
          exact ⟨!b, ho, by simp [he]⟩

/-- A stack of fewer than `2 ^ 53` frames is exhausted by every integer larger
than the number of frames. -/
theorem internal_exhausted (d n : Nat) (hd : d < 2 ^ 53) (hn : d < n) (hm : n ≤ maxDouble) :
    checkEvenInternal d (.num (.int (n : Int))) = .error .stackOverflow ∧
      checkOddInternal d (.num (.int (n : Int))) = .error .stackOverflow := by
  induction d generalizing n with
  | zero => exact ⟨checkEvenInternal_zero _, checkOddInternal_zero _⟩
  | succ d ih =>
    have h0 : n ≠ 0 := by omega
    have h1 : n ≠ 1 := by omega
    have hp := ofInt_pred n (by omega) hm
    have hlt : d < roundNat (n - 1) := by
      by_cases hs : n - 1 < 2 ^ 53
      · rw [roundNat_of_lt _ hs]
        omega
      · have := roundNat_ge (n - 1) (by omega)
        omega
    have h := ih (roundNat (n - 1)) (by omega) hlt hp.2
    rw [checkEvenInternal_int, checkOddInternal_int, Int.natAbs_ofNat,
      if_neg h0, if_neg h1, if_neg h0, if_neg h1, hp.1]
    exact ⟨h.2, h.1⟩

/-- On an integer below `2 ^ 53` that fits the stack the recursion is exact. -/
theorem internal_exact (d n : Nat) (hs : n < 2 ^ 53) (h1 : 1 ≤ d) (hn : n ≤ d) :
    checkEvenInternal d (.num (.int (n : Int))) = .ok (decide (n % 2 = 0)) ∧
      checkOddInternal d (.num (.int (n : Int))) = .ok (decide (n % 2 = 1)) := by
  induction d generalizing n with
  | zero => omega
  | succ d ih =>
    rw [checkEvenInternal_int, checkOddInternal_int, Int.natAbs_ofNat]
    by_cases h0 : n = 0
    · subst h0
      simp
    · by_cases h1 : n = 1
      · subst h1
        simp
      · have hmax : n ≤ maxDouble := by
          have := pow53_le_maxDouble
          omega
        have hp := ofInt_pred n (by omega) hmax
        have hr : roundNat (n - 1) = n - 1 := roundNat_of_lt _ (by omega)
        rw [if_neg h0, if_neg h1, if_neg h0, if_neg h1, hp.1, hr]
        have h := ih (n - 1) (by omega) (by omega) (by omega)
        rw [h.1, h.2]
        constructor
        · congr 1
          apply decide_eq_decide.mpr
          omega
        · congr 1
          apply decide_eq_decide.mpr
          omega

/-! ## Theorems: the digit fallback -/

theorem popLoop_cons (fuel : Nat) (x : List Char) (rest : List (List Char))
    (h : rest.length ≤ fuel) : popLoop fuel (x :: rest) = [x] := by
  induction fuel generalizing rest with
  | zero =>
    have hr : rest = [] := List.length_eq_zero.mp (by omega)
    subst hr
    rfl
  | succ f ih =>
    unfold popLoop
    cases rest with
    | nil => simp
    | cons y ys =>
      have hlen : (x :: y :: ys).length > 1 := by simp
      rw [if_pos hlen, List.dropLast_cons₂]
      apply ih
      simp at h ⊢
      omega

theorem arrayToString_split_append (l : List Char) (c : Char) :
    ∃ pre, arrayToString (split (l ++ [c])) = pre ++ [c] := by
  induction l with
  | nil => exact ⟨[], rfl⟩
  | cons a l ih =>
    obtain ⟨pre, hpre⟩ := ih
    cases hl : l ++ [c] with
    | nil => simp at hl
    | cons y ys =>
      rw [hl] at hpre
      refine ⟨a :: ',' :: pre, ?_⟩
      simp only [split, List.cons_append, List.map_cons, hl, arrayToString]
      simp only [split, List.map_cons] at hpre
      rw [hpre]
      simp

/-- The pop loop leaves the last character of the string. -/
theorem lastDigitOf_append (l : List Char) (c : Char) :
    lastDigitOf (l ++ [c]) = parseInt10 [c] := by
  obtain ⟨pre, hpre⟩ := arrayToString_split_append l c
  unfold lastDigitOf
  simp only [slice, hpre, toReversed, List.map_append, List.map_cons, List.map_nil,
    List.reverse_append, List.reverse_cons, List.reverse_nil, List.nil_append,
    List.singleton_append]
  rw [popLoop_cons]
  · simp [parseInt, arrayToString]
  · simp

theorem parseInt10_digitChar (k : Nat) (hk : k < 10) :
    parseInt10 [digitChar k] = .int (k : Int) := by
  interval_cases k <;> decide

theorem alternative_of_digit (v : JSValue) (pre : List Char) (k : Nat) (hk : k < 10)
    (h : stringOf v = .ok (pre ++ [digitChar k])) :
    checkEvenAlternative v = .ok (decide (k % 2 = 0)) ∧
      checkOddAlternative v = .ok (decide (k % 2 = 1)) := by
  unfold checkEvenAlternative checkOddAlternative
  simp only [h, lastDigitOf_append, parseInt10_digitChar k hk, strictEquals_int]
  interval_cases k <;> simp

theorem decimalDigitsAux_append (fuel n : Nat) (acc : List Char) :
    decimalDigitsAux fuel n acc = decimalDigitsAux fuel n [] ++ acc := by
  induction fuel generalizing n acc with
  | zero => simp [decimalDigitsAux]
  | succ f ih =>
    unfold decimalDigitsAux
    split
    · simp
    · rw [ih (n / 10) (digitChar (n % 10) :: acc), ih (n / 10) [digitChar (n % 10)]]
      simp

/-- The decimal expansion ends with the digit `n % 10`. -/
theorem decimalDigits_last (n : Nat) :
    ∃ pre, decimalDigits n = pre ++ [digitChar (n % 10)] := by
  unfold decimalDigits
  rw [decimalDigitsAux]
  split
  · rename_i h
    refine ⟨[], ?_⟩
    rw [Nat.mod_eq_of_lt h]
    rfl
  · exact ⟨decimalDigitsAux n (n / 10) [], decimalDigitsAux_append _ _ _⟩

theorem renderDecimal_last (s : Nat) (n : Int) :
    ∃ pre k, k < 10 ∧ renderDecimal s n = pre ++ [digitChar k] := by
  obtain ⟨p, hp⟩ := decimalDigits_last s
  obtain ⟨q, hq⟩ := decimalDigits_last (n - 1).natAbs
  have hs : s % 10 < 10 := Nat.mod_lt _ (by norm_num)
  have hq10 : (n - 1).natAbs % 10 < 10 := Nat.mod_lt _ (by norm_num)
  unfold renderDecimal
  simp only []
  generalize (if 0 ≤ n - 1 then '+' else '-') = sg
  split_ifs with h1 h2 h3 h4
  · cases hz : (n - ((decimalDigits s).length : Int)).toNat with
    | zero => exact ⟨p, s % 10, hs, by simp [hp]⟩
    | succ z =>
      refine ⟨decimalDigits s ++ List.replicate z '0', 0, by norm_num, ?_⟩
      rw [List.replicate_succ', ← List.append_assoc]
      rfl
  · have hlen : n.toNat ≤ p.length := by
      have hl : (decimalDigits s).length = p.length + 1 := by simp [hp]
      rw [hl] at h1
      push_neg at h1
      have := h1
      omega
    refine ⟨List.take n.toNat (decimalDigits s) ++ '.' :: List.drop n.toNat p, s % 10, hs, ?_⟩
    rw [hp, List.drop_append_of_le_length hlen]
    simp
  · exact ⟨'0' :: '.' :: (List.replicate (-n).toNat '0' ++ p), s % 10, hs, by simp [hp]⟩
  · exact ⟨decimalDigits s ++ 'e' :: sg :: q, (n - 1).natAbs % 10, hq10, by simp [hq]⟩
  · exact ⟨List.take 1 (decimalDigits s) ++ '.' :: (List.drop 1 (decimalDigits s) ++
      'e' :: sg :: q), (n - 1).natAbs % 10, hq10, by simp [hq]⟩

theorem unsignedToString_neg (i : Int) :
    unsignedToString (.int (-i)) = unsignedToString (.int i) := by
  simp [unsignedToString, shortestDecimal, significand, Int.natAbs_neg]

theorem unsignedToString_int_last (i : Int) :
    ∃ pre k, k < 10 ∧ unsignedToString (.int i) = pre ++ [digitChar k] := by
  simp only [unsignedToString]
  split_ifs with h
  · obtain ⟨p, hp⟩ := decimalDigits_last i.natAbs
    exact ⟨p, i.natAbs % 10, Nat.mod_lt _ (by norm_num), hp⟩
  · exact renderDecimal_last _ _

/-- The string of an integer ends with a decimal digit. -/
theorem numberToString_int_last (i : Int) :
    ∃ pre k, k < 10 ∧ numberToString (.int i) = pre ++ [digitChar k] := by
  obtain ⟨p, k, hk, hp⟩ := unsignedToString_int_last i
  simp only [numberToString]
  split_ifs with h0 hneg
  · exact ⟨[], 0, by norm_num, rfl⟩
  · exact ⟨'-' :: p, k, hk, by simp [hp]⟩
  · exact ⟨p, k, hk, hp⟩

/-- The string of an integer below `2 ^ 53` ends with its last decimal digit. -/
theorem numberToString_int_small (i : Int) (h : i.natAbs < 2 ^ 53) :
    ∃ pre, numberToString (.int i) = pre ++ [digitChar (i.natAbs % 10)] := by
  obtain ⟨p, hp⟩ := decimalDigits_last i.natAbs
  simp only [numberToString, unsignedToString, if_pos h]
  split_ifs with h0 hneg
  · subst h0
    exact ⟨[], rfl⟩
  · exact ⟨'-' :: p, by simp [hp]⟩
  · exact ⟨p, hp⟩

/-- The strings of an integer and of its opposite end with the same digit. -/
theorem numberToString_neg_last (i : Int) :
    ∃ pre pre2 k, k < 10 ∧ numberToString (.int i) = pre ++ [digitChar k] ∧
      numberToString (JSNumber.int i).neg = pre2 ++ [digitChar k] := by
  obtain ⟨p, k, hk, hp⟩ := unsignedToString_int_last i
  by_cases h0 : i = 0
  · subst h0
    exact ⟨[], [], 0, by norm_num, rfl, rfl⟩
  · have hn0 : -i ≠ 0 := by omega
    simp only [JSNumber.neg, if_neg h0, numberToString, if_neg hn0, unsignedToString_neg, hp]
    by_cases hneg : i < 0
    · have hpos : ¬ (-i < 0) := by omega
      rw [if_pos hneg, if_neg hpos]
      exact ⟨'-' :: p, p, k, hk, by simp, rfl⟩
    · have hpos : -i < 0 := by omega
      rw [if_neg hneg, if_pos hpos]
      exact ⟨p, '-' :: p, k, hk, rfl, by simp⟩

/-! ## Theorems: the firewall and the public functions -/

theorem debugLine_num (x : JSNumber) (m : MergedOptions) : debugLine (.num x) m = .ok () := by
  unfold debugLine
  split_ifs <;> rfl

theorem isNotInteger_eq (v : JSValue) : isNotInteger v = !numberIsInteger v := by
  unfold isNotInteger isNotInteger1 isNotInteger2
  split_ifs <;> rfl

/-- The firewall admits every number that is finite with a zero fractional part,
whatever the options. -/
theorem validateInput_integer (x : JSNumber) (m : MergedOptions) (hx : x.isInteger = true) :
    validateInput (.num x) m = .ok true := by
  unfold validateInput
  rw [debugLine_num]
  cases x <;> simp_all [JSNumber.isInteger, isNumber, isNaN, isFinite, isNotInteger_eq,
    numberIsInteger]

theorem validateInput_frac (neg : Bool) (k e : Nat) (m : MergedOptions) :
    validateInput (.num (.frac neg k e)) m =
      if m.throwOnNonInteger then .error (.typeError nonIntegerMessage) else .ok false := by
  unfold validateInput
  rw [debugLine_num]
  simp [isNumber, isNaN, isFinite, isNotInteger_eq, numberIsInteger]

theorem validateInput_nan (m : MergedOptions) :
    validateInput (.num .nan) m =
      if m.throwOnNaN then .error (.rangeError nanMessage) else .ok false := by
  unfold validateInput
  rw [debugLine_num]
  simp [isNumber, isNaN]

theorem validateInput_inf (neg : Bool) (m : MergedOptions) :
    validateInput (.num (.inf neg)) m =
      if m.throwOnNonFinite then .error (.rangeError nonFiniteMessage) else .ok false := by
  unfold validateInput
  rw [debugLine_num]
  simp [isNumber, isNaN, isFinite]

/-- On a number, the conversion of `checkEven` changes nothing: the call is the
firewall followed by the engine. -/
theorem checkEven_num (d : Nat) (x : JSNumber) (o : Option ClassificationOptions) :
    checkEven d (.num x) o =
      match validateInput (.num x) (objectAssign DEFAULT_OPTIONS o) with
      | .error e => .error e
      | .ok false => .ok false
      | .ok true => attempt (checkEvenInternal d (.num x)) (checkEvenAlternative (.num x)) := by
  unfold checkEven
  simp only [toNumber]
  split_ifs <;> rfl

theorem checkOdd_num (d : Nat) (x : JSNumber) (o : Option ClassificationOptions) :
    checkOdd d (.num x) o =
      match validateInput (.num x) (objectAssign DEFAULT_OPTIONS o) with
      | .error e => .error e
      | .ok false => .ok false
      | .ok true => attempt (checkOddInternal d (.num x)) (checkOddAlternative (.num x)) := by
  unfold checkOdd
  simp only [toNumber]
  cases validateInput (.num x) (objectAssign DEFAULT_OPTIONS o) with
  | error e => rfl
  | ok b =>
    cases b with
    | false => rfl
    | true =>
      simp only []
      split_ifs <;> rfl

theorem checkEven_integer (d : Nat) (x : JSNumber) (o : Option ClassificationOptions)
    (hx : x.isInteger = true) :
    checkEven d (.num x) o =
      attempt (checkEvenInternal d (.num x)) (checkEvenAlternative (.num x)) := by
  rw [checkEven_num, validateInput_integer x _ hx]

theorem checkOdd_integer (d : Nat) (x : JSNumber) (o : Option ClassificationOptions)
    (hx : x.isInteger = true) :
    checkOdd d (.num x) o =
      attempt (checkOddInternal d (.num x)) (checkOddAlternative (.num x)) := by
  rw [checkOdd_num, validateInput_integer x _ hx]

theorem alternative_negZero :
    checkEvenAlternative (.num .negZero) = .ok true ∧
      checkOddAlternative (.num .negZero) = .ok false := by
  have h := alternative_of_digit (.num .negZero) [] 0 (by norm_num) rfl
  simpa using h

/-- The two fallbacks on an integer: some digit `k` decides both. -/
theorem alternative_int (i : Int) :
    ∃ k, k < 10 ∧ checkEvenAlternative (.num (.int i)) = .ok (decide (k % 2 = 0)) ∧
      checkOddAlternative (.num (.int i)) = .ok (decide (k % 2 = 1)) := by
  obtain ⟨pre, k, hk, hp⟩ := numberToString_int_last i
  have h := alternative_of_digit (.num (.int i)) pre k hk (by simp [stringOf, toStringValue, hp])
  exact ⟨k, hk, h.1, h.2⟩

/-! ## Theorems: the number `1e21` -/

theorem ofInt_pred_1e21 : ofInt (((10 ^ 21 : Int).natAbs : Int) - 1) = .int (10 ^ 21) := by
  decide

/-- The recursion never ends on `1e21`, because `1e21 - 1` rounds to `1e21`. -/
theorem internal_1e21 (d : Nat) :
    checkEvenInternal d (.num (.int (10 ^ 21))) = .error .stackOverflow ∧
      checkOddInternal d (.num (.int (10 ^ 21))) = .error .stackOverflow := by
  induction d with
  | zero => exact ⟨checkEvenInternal_zero _, checkOddInternal_zero _⟩
  | succ d ih =>
    have h0 : ¬ (10 ^ 21 : Int).natAbs = 0 := by decide
    have h1 : ¬ (10 ^ 21 : Int).natAbs = 1 := by decide
    rw [checkEvenInternal_int, checkOddInternal_int, if_neg h0, if_neg h1, if_neg h0, if_neg h1,
      ofInt_pred_1e21]
    exact ⟨ih.2, ih.1⟩

theorem numberToString_1e21 :
    numberToString (.int (10 ^ 21)) = ['1', 'e', '+', '2', '1'] := by
  decide

theorem alternative_1e21 :
    checkEvenAlternative (.num (.int (10 ^ 21))) = .ok false ∧
      checkOddAlternative (.num (.int (10 ^ 21))) = .ok true := by
  have h := alternative_of_digit (.num (.int (10 ^ 21))) ['1', 'e', '+', '2'] 1 (by norm_num)
    (by simp only [stringOf, toStringValue, numberToString_1e21]; rfl)
  simpa using h

/-! ## Theorems: the claims -/

/-- C1, at the input where it fails.  The number `1e21` is a binary64 integer and
is even, yet `checkEven` returns `false` on it and `checkOdd` returns `true`,
whatever the size of the call stack: the recursion exhausts the stack and the
fallback reads the last character of the string `1e+21`. -/
theorem checkEven_1e21 (d : Nat) :
    (JSNumber.int (10 ^ 21)).isDouble = true ∧ (10 ^ 21 : Int) % 2 = 0 ∧
      checkEven d (.num (.int (10 ^ 21))) none = .ok false ∧
      checkOdd d (.num (.int (10 ^ 21))) none = .ok true := by
  refine ⟨by decide, by decide, ?_, ?_⟩
  · rw [checkEven_integer d (.int (10 ^ 21)) none rfl, (internal_1e21 d).1, attempt,
      alternative_1e21.1]
  · rw [checkOdd_integer d (.int (10 ^ 21)) none rfl, (internal_1e21 d).2, attempt,
      alternative_1e21.2]

/-- C2.  For every binary64 integer, every size of the call stack and every
options, `checkEven` and `checkOdd` both return, and their results are opposite,
whether the recursion or the fallback produces them. -/
theorem checkEven_eq_not_checkOdd (d : Nat) (x : JSNumber) (o : Option ClassificationOptions)
    (hx : x.isInteger = true) (hd : x.isDouble = true) :
    ∃ b, checkEven d (.num x) o = .ok b ∧ checkOdd d (.num x) o = .ok (!b) := by
  rw [checkEven_integer d x o hx, checkOdd_integer d x o hx]
  cases x with
  | nan => simp [JSNumber.isInteger] at hx
  | inf s => simp [JSNumber.isInteger] at hx
  | frac s m e => simp [JSNumber.isInteger] at hx
  | negZero =>
    cases d with
    | zero =>
      rw [checkEvenInternal_zero, checkOddInternal_zero, attempt, attempt,
        alternative_negZero.1, alternative_negZero.2]
      exact ⟨true, rfl, rfl⟩
    | succ d =>
      rw [checkEvenInternal_negZero, checkOddInternal_negZero]
      exact ⟨true, rfl, rfl⟩
  | int i =>
    rw [checkEvenInternal_natAbs, checkOddInternal_natAbs]
    rcases internal_paired d i.natAbs (isDouble_int_le i hd) with ⟨he, ho⟩ | ⟨b, he, ho⟩
    · obtain ⟨k, hk, hke, hko⟩ := alternative_int i
      rw [he, ho, attempt, attempt, hke, hko]
      refine ⟨decide (k % 2 = 0), rfl, ?_⟩
      congr 1
      have hcases : k % 2 = 0 ∨ k % 2 = 1 := by omega
      rcases hcases with h | h <;> simp [h]
    · rw [he, ho]
      exact ⟨b, rfl, rfl⟩

/-- C2, at the integer seven with a stack of three frames (the fallback path). -/
theorem checkEven_eq_not_checkOdd_witness :
    ∃ b, checkEven 3 (.num (.int 7)) none = .ok b ∧ checkOdd 3 (.num (.int 7)) none = .ok (!b) :=
  checkEven_eq_not_checkOdd 3 (.int 7) none rfl (by decide)

/-- C3.  For every integer, every size of the call stack and every options,
`checkEven` and `checkOdd` give the same result on the integer and on its
opposite (the opposite of zero being the negative zero). -/
theorem checkEven_neg (d : Nat) (i : Int) (o : Option ClassificationOptions) :
    checkEven d (.num (JSNumber.int i).neg) o = checkEven d (.num (.int i)) o ∧
      checkOdd d (.num (JSNumber.int i).neg) o = checkOdd d (.num (.int i)) o := by
  have hneg : (JSNumber.int i).neg.isInteger = true := by
    simp only [JSNumber.neg]
    split_ifs <;> rfl
  rw [checkEven_integer d _ o hneg, checkOdd_integer d _ o hneg,
    checkEven_integer d (.int i) o rfl, checkOdd_integer d (.int i) o rfl]
  obtain ⟨pre, pre2, k, hk, hp, hp2⟩ := numberToString_neg_last i
  have ha := alternative_of_digit (.num (.int i)) pre k hk
    (by simp [stringOf, toStringValue, hp])
  have hb := alternative_of_digit (.num (JSNumber.int i).neg) pre2 k hk
    (by simp [stringOf, toStringValue, hp2])
  rw [ha.1, ha.2, hb.1, hb.2]
  by_cases h0 : i = 0
  · subst h0
    cases d with
    | zero =>
      simp [checkEvenInternal_zero, checkOddInternal_zero]
    | succ d =>
      simp [JSNumber.neg, checkEvenInternal_negZero, checkOddInternal_negZero,
        checkEvenInternal_int, checkOddInternal_int, attempt]
  · simp only [JSNumber.neg, if_neg h0]
    rw [checkEvenInternal_natAbs d (-i), checkOddInternal_natAbs d (-i), Int.natAbs_neg,
      ← checkEvenInternal_natAbs, ← checkOddInternal_natAbs]
    exact ⟨rfl, rfl⟩

/-- C4.  On a call stack of fewer than `2 ^ 53` frames, whenever the recursion
completes on a binary64 integer, the fallback returns the same result: this
holds for `checkEvenInternal` against `checkEvenAlternative` and for
`checkOddInternal` against `checkOddAlternative`. -/
theorem alternative_eq_internal (d : Nat) (x : JSNumber) (b : Bool) (hdepth : d < 2 ^ 53)
    (hx : x.isInteger = true) (hd : x.isDouble = true) :
    (checkEvenInternal d (.num x) = .ok b → checkEvenAlternative (.num x) = .ok b) ∧
      (checkOddInternal d (.num x) = .ok b → checkOddAlternative (.num x) = .ok b) := by
  cases x with
  | nan => simp [JSNumber.isInteger] at hx
  | inf s => simp [JSNumber.isInteger] at hx
  | frac s m e => simp [JSNumber.isInteger] at hx
  | negZero =>
    cases d with
    | zero => simp [checkEvenInternal_zero, checkOddInternal_zero]
    | succ d =>
      rw [checkEvenInternal_negZero, checkOddInternal_negZero, alternative_negZero.1,
        alternative_negZero.2]
      exact ⟨id, id⟩
  | int i =>
    rw [checkEvenInternal_natAbs, checkOddInternal_natAbs]
    by_cases hn : d < i.natAbs
    · have h := internal_exhausted d i.natAbs hdepth hn (isDouble_int_le i hd)
      rw [h.1, h.2]
      simp
    · cases d with
      | zero => simp [checkEvenInternal_zero, checkOddInternal_zero]
      | succ d =>
        have hs : i.natAbs < 2 ^ 53 := by omega
        have h := internal_exact (d + 1) i.natAbs hs (by omega) (by omega)
        obtain ⟨pre, hp⟩ := numberToString_int_small i hs
        have ha := alternative_of_digit (.num (.int i)) pre (i.natAbs % 10)
          (Nat.mod_lt _ (by norm_num)) (by simp [stringOf, toStringValue, hp])
        have e0 : decide (i.natAbs % 10 % 2 = 0) = decide (i.natAbs % 2 = 0) := by
          apply decide_eq_decide.mpr
          omega
        have e1 : decide (i.natAbs % 10 % 2 = 1) = decide (i.natAbs % 2 = 1) := by
          apply decide_eq_decide.mpr
          omega
        rw [h.1, h.2, ha.1, ha.2, e0, e1]
        exact ⟨id, id⟩

/-- C4, at the integer four with a stack of five frames: the recursion completes
with `true`, and so does the fallback. -/
theorem alternative_eq_internal_witness :
    checkEvenInternal 5 (.num (.int 4)) = .ok true ∧
      checkEvenAlternative (.num (.int 4)) = .ok true :=
  ⟨by decide,
    (alternative_eq_internal 5 (.int 4) true (by norm_num) rfl (by decide)).1 (by decide)⟩

/-- C5, at the input where it fails.  For the validated integer `1e21` the
character the fallbacks look up parses to `1`, while the last decimal digit of
`10 ^ 21` is `0`; `checkEvenAlternative` returns `false` and `checkOddAlternative`
returns `true` on this even number. -/
theorem lastDigitOf_1e21 :
    validateInput (.num (.int (10 ^ 21))) DEFAULT_OPTIONS = .ok true ∧
      lastDigitOf (numberToString (.int (10 ^ 21))) = .int 1 ∧ (10 ^ 21 : Nat) % 10 = 0 ∧
      checkEvenAlternative (.num (.int (10 ^ 21))) = .ok false ∧
      checkOddAlternative (.num (.int (10 ^ 21))) = .ok true := by
  refine ⟨validateInput_integer _ _ rfl, ?_, by norm_num, alternative_1e21.1, alternative_1e21.2⟩
  rw [numberToString_1e21]
  exact lastDigitOf_append ['1', 'e', '+', '2'] '1' |>.trans (parseInt10_digitChar 1 (by norm_num))

/-- C6.  Whatever the size of the call stack and the options, `checkEven` is
`true` and `checkOdd` is `false` on zero and on the negative zero, and
`checkEven` is `false` and `checkOdd` is `true` on one. -/
theorem checkEven_checkOdd_zero_one (d : Nat) (o : Option ClassificationOptions) :
    checkEven d (.num (.int 0)) o = .ok true ∧ checkOdd d (.num (.int 0)) o = .ok false ∧
      checkEven d (.num (.int 1)) o = .ok false ∧ checkOdd d (.num (.int 1)) o = .ok true ∧
      checkEven d (.num .negZero) o = .ok true ∧ checkOdd d (.num .negZero) o = .ok false := by
  have a0 := alternative_of_digit (.num (.int 0)) [] 0 (by norm_num) rfl
  have a1 := alternative_of_digit (.num (.int 1)) [] 1 (by norm_num) rfl
  rw [checkEven_integer d (.int 0) o rfl, checkOdd_integer d (.int 0) o rfl,
    checkEven_integer d (.int 1) o rfl, checkOdd_integer d (.int 1) o rfl,
    checkEven_integer d .negZero o rfl, checkOdd_integer d .negZero o rfl]
  cases d with
  | zero =>
    simp only [checkEvenInternal_zero, checkOddInternal_zero, attempt, a0.1, a0.2, a1.1, a1.2,
      alternative_negZero.1, alternative_negZero.2]
    simp
  | succ d =>
    simp [checkEvenInternal_int, checkOddInternal_int, checkEvenInternal_negZero,
      checkOddInternal_negZero, attempt]

/-- What the firewall admits is a number that is finite with a zero fractional
part. -/
theorem validateInput_sound (v : JSValue) (m : MergedOptions)
    (h : validateInput v m = .ok true) : ∃ x, v = .num x ∧ x.isInteger = true := by
  unfold validateInput at h
  cases hdbg : debugLine v m with
  | error e => simp [hdbg] at h
  | ok u =>
    simp only [hdbg] at h
    cases v with
    | num x =>
      refine ⟨x, rfl, ?_⟩
      cases x <;> simp_all [isNumber, isNaN, isFinite, isNotInteger_eq, numberIsInteger,
        JSNumber.isInteger] <;> split_ifs at h <;> simp at h
    | str s =>
      exfalso
      simp only [isNaN, isFinite, Bool.false_eq_true, if_false, Bool.not_false, if_true] at h
      split_ifs at h <;> simp at h
    | undefined =>
      simp [isNumber] at h
      split_ifs at h
      simp at h
    | null =>
      simp [isNumber] at h
      split_ifs at h
      simp at h
    | bool b =>
      simp [isNumber] at h
      split_ifs at h
      simp at h
    | symbol =>
      simp [isNumber] at h
      split_ifs at h
      simp at h
    | obj a b =>
      simp [isNumber] at h
      split_ifs at h
      simp at h

/-- With the four flags unset the firewall returns a boolean as soon as its debug
line can be built. -/
theorem validateInput_unset (v : JSValue) (m : MergedOptions)
    (h1 : m.throwOnNonNumber = false) (h2 : m.throwOnNonInteger = false)
    (h3 : m.throwOnNonFinite = false) (h4 : m.throwOnNaN = false)
    (hdbg : debugLine v m = .ok ()) : ∃ b, validateInput v m = .ok b := by
  unfold validateInput
  simp only [hdbg, h1, h2, h3, h4, Bool.false_eq_true, if_false]
  split_ifs <;> exact ⟨_, rfl⟩

theorem ite_returns (c : Prop) [Decidable c] (t : Bool) (y : Except JSError Bool)
    (h : ∃ b, y = .ok b) : ∃ b, (if c then Except.ok t else y) = .ok b := by
  by_cases hc : c
  · exact ⟨t, by rw [if_pos hc]⟩
  · rw [if_neg hc]
    exact h

theorem alternative_num_returns (x : JSNumber) :
    (∃ b, checkEvenAlternative (.num x) = .ok b) ∧
      (∃ b, checkOddAlternative (.num x) = .ok b) := by
  unfold checkEvenAlternative checkOddAlternative
  simp only [stringOf, toStringValue]
  generalize lastDigitOf (numberToString x) = lastDigit
  constructor
  · repeat apply ite_returns
    exact ⟨false, rfl⟩
  · repeat apply ite_returns
    exact ⟨false, rfl⟩

theorem attempt_returns (body rescue : Except JSError Bool) (h : ∃ b, rescue = .ok b) :
    ∃ b, attempt body rescue = .ok b := by
  obtain ⟨b, hb⟩ := h
  unfold attempt
  cases body with
  | ok r => exact ⟨r, rfl⟩
  | error e => exact ⟨b, hb⟩

theorem debugLine_of_toString (v : JSValue) (m : MergedOptions)
    (h : m.enableDebug = true → ∃ s, toStringValue v = .ok s) : debugLine v m = .ok () := by
  unfold debugLine
  split_ifs with hd
  · obtain ⟨s, hs⟩ := h hd
    rw [hs]
  · rfl

/-- C7, at an input where it fails.  With the four `throwOn` flags unset and
`allowNumberStrings` set, `checkEven` raises a type error on a symbol: the
conversion to a number, which has no handler, raises before the firewall runs.
`checkOdd`, which runs the firewall before the conversion, returns `false` on
the same call. -/
theorem checkEven_symbol_raises :
    (objectAssign DEFAULT_OPTIONS (some { allowNumberStrings := some true })).throwOnNonNumber
        = false ∧
      (objectAssign DEFAULT_OPTIONS (some { allowNumberStrings := some true })).throwOnNonInteger
        = false ∧
      (objectAssign DEFAULT_OPTIONS (some { allowNumberStrings := some true })).throwOnNonFinite
        = false ∧
      (objectAssign DEFAULT_OPTIONS (some { allowNumberStrings := some true })).throwOnNaN
        = false ∧
      checkEven 1000 .symbol (some { allowNumberStrings := some true }) =
        .error (.typeError "Cannot convert a Symbol value to a number") ∧
      checkOdd 1000 .symbol (some { allowNumberStrings := some true }) = .ok false := by
  decide

/-- The two functions return a boolean wherever the conversions of the entry
path do not raise.  With the four `throwOn` flags unset and a debug line that
can be built, `checkOdd` returns a boolean on every value and for every size of
the call stack, and so does `checkEven` on every value whose conversion to a
number does not raise when `allowNumberStrings` is set; an exhausted call stack
is recovered by the fallback. -/
theorem checkEven_checkOdd_return (d : Nat) (v : JSValue) (o : Option ClassificationOptions)
    (h1 : (objectAssign DEFAULT_OPTIONS o).throwOnNonNumber = false)
    (h2 : (objectAssign DEFAULT_OPTIONS o).throwOnNonInteger = false)
    (h3 : (objectAssign DEFAULT_OPTIONS o).throwOnNonFinite = false)
    (h4 : (objectAssign DEFAULT_OPTIONS o).throwOnNaN = false)
    (hstr : (objectAssign DEFAULT_OPTIONS o).enableDebug = true →
      ∃ s, toStringValue v = .ok s) :
    (((objectAssign DEFAULT_OPTIONS o).allowNumberStrings = true → ∃ x, toNumber v = .ok x) →
        ∃ b, checkEven d v o = .ok b) ∧
      (∃ b, checkOdd d v o = .ok b) := by
  constructor
  · intro hnum
    unfold checkEven
    simp only []
    by_cases ha : (objectAssign DEFAULT_OPTIONS o).allowNumberStrings = true
    · obtain ⟨x, hx⟩ := hnum ha
      simp only [ha, if_true, hx]
      obtain ⟨b, hb⟩ := validateInput_unset (.num x) _ h1 h2 h3 h4 (debugLine_num x _)
      rw [hb]
      cases b with
      | false => exact ⟨false, rfl⟩
      | true => exact attempt_returns _ _ (alternative_num_returns x).1
    · rw [if_neg ha]
      simp only []
      obtain ⟨b, hb⟩ := validateInput_unset v _ h1 h2 h3 h4 (debugLine_of_toString v _ hstr)
      rw [hb]
      cases b with
      | false => exact ⟨false, rfl⟩
      | true =>
        obtain ⟨x, hx, _⟩ := validateInput_sound v _ hb
        subst hx
        exact attempt_returns _ _ (alternative_num_returns x).1
  · unfold checkOdd
    simp only []
    obtain ⟨b, hb⟩ := validateInput_unset v _ h1 h2 h3 h4 (debugLine_of_toString v _ hstr)
    rw [hb]
    cases b with
    | false => exact ⟨false, rfl⟩
    | true =>
      obtain ⟨x, hx, _⟩ := validateInput_sound v _ hb
      subst hx
      simp only [toNumber]
      split_ifs <;> exact attempt_returns _ _ (alternative_num_returns x).2

/-- The string `12`, with a stack of three frames and `allowNumberStrings` and
`enableDebug` set, is a value on which both functions return a boolean. -/
theorem checkEven_checkOdd_return_witness :
    (∃ b, checkEven 3 (.str ['1', '2'])
        (some { allowNumberStrings := some true, enableDebug := some true }) = .ok b) ∧
      (∃ b, checkOdd 3 (.str ['1', '2'])
        (some { allowNumberStrings := some true, enableDebug := some true }) = .ok b) :=
  ⟨(checkEven_checkOdd_return 3 (.str ['1', '2'])
      (some { allowNumberStrings := some true, enableDebug := some true })
      rfl rfl rfl rfl (fun _ => ⟨_, rfl⟩)).1 (fun _ => ⟨_, rfl⟩),
    (checkEven_checkOdd_return 3 (.str ['1', '2'])
      (some { allowNumberStrings := some true, enableDebug := some true })
      rfl rfl rfl rfl (fun _ => ⟨_, rfl⟩)).2⟩

/-- C8.  On every finite number with a non-zero fractional part, for every size
of the call stack and every options, `checkEven` and `checkOdd` raise the type
error with the not-an-integer message when `throwOnNonInteger` is set, and
return `false` when it is not. -/
theorem checkEven_checkOdd_fraction (d : Nat) (neg : Bool) (k e : Nat)
    (o : Option ClassificationOptions) :
    checkEven d (.num (.frac neg k e)) o =
        (if (objectAssign DEFAULT_OPTIONS o).throwOnNonInteger
          then .error (.typeError nonIntegerMessage) else .ok false) ∧
      checkOdd d (.num (.frac neg k e)) o =
        (if (objectAssign DEFAULT_OPTIONS o).throwOnNonInteger
          then .error (.typeError nonIntegerMessage) else .ok false) := by
  rw [checkEven_num, checkOdd_num, validateInput_frac]
  cases (objectAssign DEFAULT_OPTIONS o).throwOnNonInteger <;> exact ⟨rfl, rfl⟩

/-- C9.  On `NaN`, for every size of the call stack and every options,
`checkEven` and `checkOdd` raise the range error with the NaN message when
`throwOnNaN` is set, and return `false` when it is not. -/
theorem checkEven_checkOdd_nan (d : Nat) (o : Option ClassificationOptions) :
    checkEven d (.num .nan) o =
        (if (objectAssign DEFAULT_OPTIONS o).throwOnNaN
          then .error (.rangeError nanMessage) else .ok false) ∧
      checkOdd d (.num .nan) o =
        (if (objectAssign DEFAULT_OPTIONS o).throwOnNaN
          then .error (.rangeError nanMessage) else .ok false) := by
  rw [checkEven_num, checkOdd_num, validateInput_nan]
  cases (objectAssign DEFAULT_OPTIONS o).throwOnNaN <;> exact ⟨rfl, rfl⟩

/-- C10.  On the positive and the negative infinity the type gate accepts the
value and the finite gate rejects it: for every size of the call stack and every
options, whatever `throwOnNonNumber` is, `checkEven` and `checkOdd` raise the
range error with the not-finite message when `throwOnNonFinite` is set, and
return `false` when it is not. -/
theorem checkEven_checkOdd_infinity (d : Nat) (neg : Bool) (o : Option ClassificationOptions) :
    isNumber (.num (.inf neg))
        { allowInfinite := true,
          allowNumberStrings := (objectAssign DEFAULT_OPTIONS o).allowNumberStrings } = true ∧
      checkEven d (.num (.inf neg)) o =
        (if (objectAssign DEFAULT_OPTIONS o).throwOnNonFinite
          then .error (.rangeError nonFiniteMessage) else .ok false) ∧
      checkOdd d (.num (.inf neg)) o =
        (if (objectAssign DEFAULT_OPTIONS o).throwOnNonFinite
          then .error (.rangeError nonFiniteMessage) else .ok false) := by
  rw [checkEven_num, checkOdd_num, validateInput_inf]
  cases (objectAssign DEFAULT_OPTIONS o).throwOnNonFinite <;> exact ⟨rfl, rfl, rfl⟩

theorem isNumber_not_num (v : JSValue) (allowInfinite : Bool) (h : ∀ x, v ≠ .num x) :
    isNumber v { allowInfinite := allowInfinite, allowNumberStrings := false } = false := by
  cases v with
  | num x => exact absurd rfl (h x)
  | str s => simp [isNumber]
  | undefined => rfl
  | null => rfl
  | bool b => rfl
  | symbol => rfl
  | obj a b => rfl

/-- C11, at an input where it fails.  A symbol is not a number, and with the
default options `checkOdd` returns `false` on it, and raises the type error with
the not-a-number message when `throwOnNonNumber` is set.  With `enableDebug` set
as well, neither happens: building the debug line, which has no handler, raises
a type error of its own before the type gate is reached. -/
theorem checkOdd_symbol_debug_raises :
    (objectAssign DEFAULT_OPTIONS (some { enableDebug := some true })).allowNumberStrings = false ∧
      (objectAssign DEFAULT_OPTIONS (some { enableDebug := some true })).throwOnNonNumber = false ∧
      checkOdd 0 .symbol none = .ok false ∧
      checkOdd 0 .symbol (some { throwOnNonNumber := some true }) =
        .error (.typeError nonNumberMessage) ∧
      checkOdd 0 .symbol (some { enableDebug := some true }) =
        .error (.typeError "Cannot convert a Symbol value to a string") ∧
      checkOdd 0 .symbol (some { throwOnNonNumber := some true, enableDebug := some true }) =
        .error (.typeError "Cannot convert a Symbol value to a string") := by
  decide

/-- The type gate rejects what is not a number.  With `allowNumberStrings` unset,
on every value that is not a number (every string among them) whose debug line
can be built, `checkEven` and `checkOdd` raise the type error with the
not-a-number message when `throwOnNonNumber` is set and return `false` when it
is not, for every size of the call stack. -/
theorem nonNumber_rejected (d : Nat) (v : JSValue) (o : Option ClassificationOptions)
    (hv : ∀ x, v ≠ .num x)
    (ha : (objectAssign DEFAULT_OPTIONS o).allowNumberStrings = false)
    (hstr : (objectAssign DEFAULT_OPTIONS o).enableDebug = true → ∃ s, toStringValue v = .ok s) :
    checkEven d v o =
        (if (objectAssign DEFAULT_OPTIONS o).throwOnNonNumber
          then .error (.typeError nonNumberMessage) else .ok false) ∧
      checkOdd d v o =
        (if (objectAssign DEFAULT_OPTIONS o).throwOnNonNumber
          then .error (.typeError nonNumberMessage) else .ok false) := by
  have hval : validateInput v (objectAssign DEFAULT_OPTIONS o) =
      (if (objectAssign DEFAULT_OPTIONS o).throwOnNonNumber
        then .error (.typeError nonNumberMessage) else .ok false) := by
    unfold validateInput
    rw [debugLine_of_toString v _ hstr]
    simp only [ha, isNumber_not_num v true hv, Bool.not_false, if_true]
  unfold checkEven checkOdd
  simp only [ha, Bool.false_eq_true, if_false, hval]
  cases (objectAssign DEFAULT_OPTIONS o).throwOnNonNumber <;> exact ⟨rfl, rfl⟩

/-- The type gate rejects the string `10` with the default options. -/
theorem nonNumber_rejected_witness :
    checkEven 5 (.str ['1', '0']) none = .ok false ∧
      checkOdd 5 (.str ['1', '0']) none = .ok false :=
  nonNumber_rejected 5 (.str ['1', '0']) none (fun _ h => nomatch h) rfl (fun h => nomatch h)

/-- The firewall follows the policy of the gates once its debug line is built. -/
theorem validateInput_eq_gatePolicy (v : JSValue) (m : MergedOptions) :
    validateInput v m =
      match debugLine v m with
      | .error e => .error e
      | .ok _ => gatePolicy v m := by
  unfold validateInput gatePolicy firstFailingGate
  cases debugLine v m with
  | error e => rfl
  | ok u =>
    simp only []
    split_ifs <;> simp_all [Gate.flag, Gate.raised]

theorem debugLine_congr (v : JSValue) (m m2 : MergedOptions) (h : m.enableDebug = m2.enableDebug) :
    debugLine v m = debugLine v m2 := by
  unfold debugLine
  rw [h]

theorem firstFailingGate_congr (v : JSValue) (m m2 : MergedOptions)
    (h : m.allowNumberStrings = m2.allowNumberStrings) :
    firstFailingGate v m = firstFailingGate v m2 := by
  unfold firstFailingGate
  rw [h]

/-- C12.  The outcome of the firewall is that of the first gate the value fails
in the order type, NaN, finite, integer, under the flag of that gate: two records
of options that agree on `allowNumberStrings`, on `enableDebug` and on the flag of
the first failing gate give the same outcome, whatever the other flags are. -/
theorem validateInput_first_gate (v : JSValue) (m m2 : MergedOptions)
    (ha : m.allowNumberStrings = m2.allowNumberStrings)
    (hd : m.enableDebug = m2.enableDebug)
    (hg : ∀ g, firstFailingGate v m = some g → g.flag m = g.flag m2) :
    validateInput v m = validateInput v m2 ∧
      validateInput v m =
        (match debugLine v m with
          | .error e => .error e
          | .ok _ => gatePolicy v m) := by
  refine ⟨?_, validateInput_eq_gatePolicy v m⟩
  rw [validateInput_eq_gatePolicy v m, validateInput_eq_gatePolicy v m2,
    debugLine_congr v m m2 hd]
  cases debugLine v m2 with
  | error e => rfl
  | ok u =>
    simp only [gatePolicy, ← firstFailingGate_congr v m m2 ha]
    cases hf : firstFailingGate v m with
    | none => rfl
    | some g => simp only [hg g hf]

/-- C12, at `NaN` with only `throwOnNonFinite` and `throwOnNonInteger` set and at
the infinity with only `throwOnNonInteger` set: the outcome is that of the
default options, and the public functions return `false`. -/
theorem validateInput_first_gate_witness :
    (validateInput (.num .nan)
        { throwOnNonNumber := false, throwOnNonInteger := true, throwOnNonFinite := true,
          throwOnNaN := false, allowNumberStrings := false, enableDebug := false } =
      validateInput (.num .nan) DEFAULT_OPTIONS) ∧
    (validateInput (.num (.inf false))
        { throwOnNonNumber := false, throwOnNonInteger := true, throwOnNonFinite := false,
          throwOnNaN := false, allowNumberStrings := false, enableDebug := false } =
      validateInput (.num (.inf false)) DEFAULT_OPTIONS) ∧
    checkEven 0 (.num .nan)
      (some { throwOnNonFinite := some true, throwOnNonInteger := some true }) = .ok false ∧
    checkOdd 0 (.num (.inf false)) (some { throwOnNonInteger := some true }) = .ok false :=
  ⟨(validateInput_first_gate (.num .nan) _ DEFAULT_OPTIONS rfl rfl (by decide)).1,
    (validateInput_first_gate (.num (.inf false)) _ DEFAULT_OPTIONS rfl rfl (by decide)).1,
    by decide, by decide⟩

theorem isNumber_other (v : JSValue) (cfg : IsNumberConfig) (hn : ∀ x, v ≠ .num x)
    (hs : ∀ s, v ≠ .str s) : isNumber v cfg = false := by
  cases v with
  | num x => exact absurd rfl (hn x)
  | str s => exact absurd rfl (hs s)
  | undefined => rfl
  | null => rfl
  | bool b => rfl
  | symbol => rfl
  | obj a b => rfl

/-- C15, at an input where it fails.  With `allowNumberStrings` and
`throwOnNonNumber` set, `checkEven` on `null` neither raises nor returns `false`:
the value is converted without a test that it is a string, to the number zero,
which is even.  `checkOdd` raises the type error with the not-a-number message
on the same call, and `checkEven` does too without `allowNumberStrings`. -/
theorem checkEven_null_coerced :
    checkEven 5 .null (some { allowNumberStrings := some true, throwOnNonNumber := some true })
        = .ok true ∧
      checkOdd 5 .null (some { allowNumberStrings := some true, throwOnNonNumber := some true })
        = .error (.typeError nonNumberMessage) ∧
      checkEven 5 .null (some { throwOnNonNumber := some true })
        = .error (.typeError nonNumberMessage) := by
  decide

/-- The two entry paths on a value that is neither a number nor a string.  With
`allowNumberStrings` set and a debug line that can be built, `checkOdd` fails
the type gate (the type error with the not-a-number message when
`throwOnNonNumber` is set, `false` otherwise); `checkEven` converts the value
first, so it behaves as on the number the conversion yields, and raises what
the conversion raises. -/
theorem coercion_of_other_values (d : Nat) (v : JSValue) (o : Option ClassificationOptions)
    (hn : ∀ x, v ≠ .num x) (hs : ∀ s, v ≠ .str s)
    (ha : (objectAssign DEFAULT_OPTIONS o).allowNumberStrings = true)
    (hstr : (objectAssign DEFAULT_OPTIONS o).enableDebug = true → ∃ s, toStringValue v = .ok s) :
    checkOdd d v o =
        (if (objectAssign DEFAULT_OPTIONS o).throwOnNonNumber
          then .error (.typeError nonNumberMessage) else .ok false) ∧
      (∀ x, toNumber v = .ok x → checkEven d v o = checkEven d (.num x) o) ∧
      (∀ e, toNumber v = .error e → checkEven d v o = .error e) := by
  refine ⟨?_, ?_, ?_⟩
  · have hval : validateInput v (objectAssign DEFAULT_OPTIONS o) =
        (if (objectAssign DEFAULT_OPTIONS o).throwOnNonNumber
          then .error (.typeError nonNumberMessage) else .ok false) := by
      unfold validateInput
      rw [debugLine_of_toString v _ hstr]
      simp only [isNumber_other v _ hn hs, Bool.not_false, if_true]
    unfold checkOdd
    simp only [hval]
    cases (objectAssign DEFAULT_OPTIONS o).throwOnNonNumber <;> rfl
  · intro x hx
    rw [checkEven_num d x o]
    unfold checkEven
    simp only [ha, if_true, hx]
  · intro e he
    unfold checkEven
    simp only [ha, if_true, he]

/-- The two entry paths on `null` with only `allowNumberStrings` set. -/
theorem coercion_of_other_values_witness :
    checkOdd 5 .null (some { allowNumberStrings := some true }) = .ok false ∧
      checkEven 5 .null (some { allowNumberStrings := some true }) =
        checkEven 5 (.num (.int 0)) (some { allowNumberStrings := some true }) :=
  ⟨(coercion_of_other_values 5 .null (some { allowNumberStrings := some true })
      (fun _ h => nomatch h) (fun _ h => nomatch h) rfl (fun h => nomatch h)).1,
    (coercion_of_other_values 5 .null (some { allowNumberStrings := some true })
      (fun _ h => nomatch h) (fun _ h => nomatch h) rfl (fun h => nomatch h)).2.1 _ rfl⟩

/-- C16, at an input where it fails.  The string `invalid` converts to `NaN`;
with `allowNumberStrings` and `throwOnNonNumber` set, `checkEven` returns `false`
on it and raises nothing. -/
theorem checkEven_invalid_string :
    stringToNumber ['i', 'n', 'v', 'a', 'l', 'i', 'd'] = .nan ∧
      checkEven 5 (.str ['i', 'n', 'v', 'a', 'l', 'i', 'd'])
        (some { allowNumberStrings := some true, throwOnNonNumber := some true }) = .ok false := by
  decide

/-- C16, amended.  With `allowNumberStrings` set, on every string that converts to
`NaN`, `checkEven` raises the range error with the NaN message when `throwOnNaN`
is set and returns `false` when it is not, whatever `throwOnNonNumber` is: the
value passes the type gate and fails the NaN gate. -/
theorem checkEven_unparsable (d : Nat) (s : List Char) (o : Option ClassificationOptions)
    (hs : stringToNumber s = .nan)
    (ha : (objectAssign DEFAULT_OPTIONS o).allowNumberStrings = true) :
    checkEven d (.str s) o =
      (if (objectAssign DEFAULT_OPTIONS o).throwOnNaN
        then .error (.rangeError nanMessage) else .ok false) := by
  unfold checkEven
  simp only [ha, if_true, toNumber, hs, validateInput_nan]
  cases (objectAssign DEFAULT_OPTIONS o).throwOnNaN <;> rfl

/-- C16, amended, at the string `invalid` with `throwOnNaN` set. -/
theorem checkEven_unparsable_witness :
    checkEven 5 (.str ['i', 'n', 'v', 'a', 'l', 'i', 'd'])
        (some { allowNumberStrings := some true, throwOnNaN := some true }) =
      .error (.rangeError nanMessage) :=
  checkEven_unparsable 5 ['i', 'n', 'v', 'a', 'l', 'i', 'd']
    (some { allowNumberStrings := some true, throwOnNaN := some true }) (by decide) rfl

/-- C18.  For every options argument, absent or present, each of the six fields
of the merged record is the caller's value for that field when the caller gave
one and `false` otherwise; no other field enters. -/
theorem objectAssign_fieldwise (o : Option ClassificationOptions) :
    (objectAssign DEFAULT_OPTIONS o).throwOnNonNumber =
        ((o.bind (fun r => r.throwOnNonNumber)).getD false) ∧
      (objectAssign DEFAULT_OPTIONS o).throwOnNonInteger =
        ((o.bind (fun r => r.throwOnNonInteger)).getD false) ∧
      (objectAssign DEFAULT_OPTIONS o).throwOnNonFinite =
        ((o.bind (fun r => r.throwOnNonFinite)).getD false) ∧
      (objectAssign DEFAULT_OPTIONS o).throwOnNaN =
        ((o.bind (fun r => r.throwOnNaN)).getD false) ∧
      (objectAssign DEFAULT_OPTIONS o).allowNumberStrings =
        ((o.bind (fun r => r.allowNumberStrings)).getD false) ∧
      (objectAssign DEFAULT_OPTIONS o).enableDebug =
        ((o.bind (fun r => r.enableDebug)).getD false) := by
  cases o with
  | none => exact ⟨rfl, rfl, rfl, rfl, rfl, rfl⟩
  | some r => exact ⟨rfl, rfl, rfl, rfl, rfl, rfl⟩

/-- C20.  For every value and every options, the firewall returns `true` only on
a number that is not `NaN`, not an infinity, and has a zero fractional part; and
on every such number (zero and the negative zero included) it returns `true`
without raising, whatever the flags are. -/
theorem validateInput_sound_complete (v : JSValue) (m : MergedOptions) :
    (validateInput v m = .ok true →
        ∃ x, v = .num x ∧ x ≠ .nan ∧ (∀ s, x ≠ .inf s) ∧ x.isInteger = true) ∧
      (∀ x : JSNumber, x.isInteger = true → validateInput (.num x) m = .ok true) := by
  constructor
  · intro h
    obtain ⟨x, hx, hi⟩ := validateInput_sound v m h
    refine ⟨x, hx, ?_, ?_, hi⟩
    · intro hn
      rw [hn] at hi
      simp [JSNumber.isInteger] at hi
    · intro s hn
      rw [hn] at hi
      simp [JSNumber.isInteger] at hi
  · intro x hx
    exact validateInput_integer x m hx

/-- C20, at the number six and at the negative zero. -/
theorem validateInput_sound_complete_witness :
    (∃ x, JSValue.num (.int 6) = .num x ∧ x ≠ .nan ∧ (∀ s, x ≠ .inf s) ∧ x.isInteger = true) ∧
      validateInput (.num .negZero) DEFAULT_OPTIONS = .ok true :=
  ⟨(validateInput_sound_complete (.num (.int 6)) DEFAULT_OPTIONS).1 (by decide),
    (validateInput_sound_complete (.num (.int 6)) DEFAULT_OPTIONS).2 .negZero rfl⟩

theorem gatePolicy_congr (v : JSValue) (m m2 : MergedOptions)
    (h1 : m.throwOnNonNumber = m2.throwOnNonNumber)
    (h2 : m.throwOnNonInteger = m2.throwOnNonInteger)
    (h3 : m.throwOnNonFinite = m2.throwOnNonFinite)
    (h4 : m.throwOnNaN = m2.throwOnNaN)
    (h5 : m.allowNumberStrings = m2.allowNumberStrings) :
    gatePolicy v m = gatePolicy v m2 := by
  unfold gatePolicy firstFailingGate
  rw [h5]
  split <;> rename_i g hg
  · rfl
  · cases g <;> simp only [Gate.flag, h1, h2, h3, h4]

/-- The firewall gives the same outcome under two records of options that differ
at most in `enableDebug`, when the debug line of the value can be built. -/
theorem validateInput_debug (v : JSValue) (m m2 : MergedOptions)
    (hv : ∃ s, toStringValue v = .ok s)
    (h1 : m.throwOnNonNumber = m2.throwOnNonNumber)
    (h2 : m.throwOnNonInteger = m2.throwOnNonInteger)
    (h3 : m.throwOnNonFinite = m2.throwOnNonFinite)
    (h4 : m.throwOnNaN = m2.throwOnNaN)
    (h5 : m.allowNumberStrings = m2.allowNumberStrings) :
    validateInput v m = validateInput v m2 := by
  rw [validateInput_eq_gatePolicy v m, validateInput_eq_gatePolicy v m2,
    debugLine_of_toString v m (fun _ => hv), debugLine_of_toString v m2 (fun _ => hv)]
  exact gatePolicy_congr v m m2 h1 h2 h3 h4 h5

/-- C17, at an input where it fails.  On a symbol, `checkEven` and `checkOdd`
raise a type error with `enableDebug` set and return `false` with it unset, the
other five options being the same: the template literal of the debug line
converts the value without a handler, while the intrinsic `String` that the
fallbacks use renders a symbol without raising. -/
theorem checkEven_symbol_debug :
    checkEven 5 .symbol (some { enableDebug := some true }) =
        .error (.typeError "Cannot convert a Symbol value to a string") ∧
      checkEven 5 .symbol (some { enableDebug := some false }) = .ok false ∧
      checkOdd 5 .symbol (some { enableDebug := some true }) =
        .error (.typeError "Cannot convert a Symbol value to a string") ∧
      checkOdd 5 .symbol (some { enableDebug := some false }) = .ok false ∧
      stringOf .symbol = .ok ['S', 'y', 'm', 'b', 'o', 'l', '(', ')'] := by
  decide

/-- The debug option changes no result where the debug line can be built.  On
every value whose conversion to a string does not raise, two options arguments
that agree on the five other options give the same outcome of `checkEven` and of
`checkOdd`, whatever `enableDebug` is in each. -/
theorem enableDebug_irrelevant (d : Nat) (v : JSValue) (o o2 : Option ClassificationOptions)
    (hv : ∃ s, toStringValue v = .ok s)
    (h1 : (objectAssign DEFAULT_OPTIONS o).throwOnNonNumber =
      (objectAssign DEFAULT_OPTIONS o2).throwOnNonNumber)
    (h2 : (objectAssign DEFAULT_OPTIONS o).throwOnNonInteger =
      (objectAssign DEFAULT_OPTIONS o2).throwOnNonInteger)
    (h3 : (objectAssign DEFAULT_OPTIONS o).throwOnNonFinite =
      (objectAssign DEFAULT_OPTIONS o2).throwOnNonFinite)
    (h4 : (objectAssign DEFAULT_OPTIONS o).throwOnNaN =
      (objectAssign DEFAULT_OPTIONS o2).throwOnNaN)
    (h5 : (objectAssign DEFAULT_OPTIONS o).allowNumberStrings =
      (objectAssign DEFAULT_OPTIONS o2).allowNumberStrings) :
    checkEven d v o = checkEven d v o2 ∧ checkOdd d v o = checkOdd d v o2 := by
  constructor
  · unfold checkEven
    simp only [h5]
    split_ifs with ha
    · cases toNumber v with
      | error e => rfl
      | ok x =>
        simp only []
        rw [validateInput_debug (.num x) _ _ ⟨_, rfl⟩ h1 h2 h3 h4 h5]
    · simp only []
      rw [validateInput_debug v _ _ hv h1 h2 h3 h4 h5]
  · unfold checkOdd
    simp only [h5]
    rw [validateInput_debug v _ _ hv h1 h2 h3 h4 h5]

/-- The debug option changes no result at the string `10` and at the number one. -/
theorem enableDebug_irrelevant_witness :
    checkEven 5 (.str ['1', '0'])
        (some { allowNumberStrings := some true, enableDebug := some true }) =
      checkEven 5 (.str ['1', '0']) (some { allowNumberStrings := some true }) ∧
    checkOdd 5 (.num (.int 1)) (some { enableDebug := some true }) =
      checkOdd 5 (.num (.int 1)) none :=
  ⟨(enableDebug_irrelevant 5 (.str ['1', '0'])
      (some { allowNumberStrings := some true, enableDebug := some true })
      (some { allowNumberStrings := some true }) ⟨_, rfl⟩ rfl rfl rfl rfl rfl).1,
    (enableDebug_irrelevant 5 (.num (.int 1)) (some { enableDebug := some true }) none
      ⟨_, rfl⟩ rfl rfl rfl rfl rfl).2⟩

/-! ## Theorems: the object store -/

theorem Store.read_assign_ne (s : Store) (target a : Nat) (source : Option Nat)
    (h : a ≠ target) : (s.assign target source).read a = s.read a := by
  cases source with
  | none => rfl
  | some b =>
    simp only [Store.assign, Store.read, List.getD_eq_getElem?_getD]
    rw [List.getElem?_set_ne (Ne.symm h)]

theorem Store.read_assign_self (s : Store) (target b : Nat) (h : target < s.objects.length) :
    (s.assign target (some b)).read target = assignFields (s.read target) (s.read b) := by
  simp only [Store.assign, Store.read, List.getD_eq_getElem?_getD]
  rw [List.getElem?_set_self h]
  rfl

theorem Store.read_alloc_lt (s : Store) (a : Nat) (h : a < s.objects.length) :
    s.alloc.1.read a = s.read a := by
  simp only [Store.alloc, Store.read, List.getD_eq_getElem?_getD]
  rw [List.getElem?_append_left h]

theorem Store.read_alloc_new (s : Store) : s.alloc.1.read s.alloc.2 = {} := by
  simp [Store.alloc, Store.read]

theorem Store.alloc_length (s : Store) : s.alloc.1.objects.length = s.objects.length + 1 := by
  simp [Store.alloc]

theorem Store.assign_length (s : Store) (target : Nat) (source : Option Nat) :
    (s.assign target source).objects.length = s.objects.length := by
  cases source with
  | none => rfl
  | some b => simp [Store.assign]

/-- The merge writes to the new record only: every record already in the store
reads as before. -/
theorem mergeOptions_frame (s : Store) (defaults : Nat) (options : Option Nat) (a : Nat)
    (h : a < s.objects.length) : (mergeOptions s defaults options).1.read a = s.read a := by
  have hne : a ≠ s.alloc.2 := by
    simp only [Store.alloc]
    omega
  unfold mergeOptions
  simp only []
  rw [Store.read_assign_ne _ _ _ _ hne, Store.read_assign_ne _ _ _ _ hne,
    Store.read_alloc_lt s a h]

theorem flagsOf_assign_default (r : ClassificationOptions) :
    flagsOf (assignFields (assignFields {} defaultRecord) r) =
      objectAssign DEFAULT_OPTIONS (some r) := by
  cases r with
  | mk a b c d e f =>
    cases a <;> cases b <;> cases c <;> cases d <;> cases e <;> cases f <;> rfl

/-- The flags of the merged record are those of the pure merge. -/
theorem mergeOptions_flags (s : Store) (defaults : Nat) (options : Option Nat)
    (hd : defaults < s.objects.length) (ho : ∀ a, options = some a → a < s.objects.length)
    (hdef : s.read defaults = defaultRecord) :
    flagsOf ((mergeOptions s defaults options).1.read (mergeOptions s defaults options).2) =
      objectAssign DEFAULT_OPTIONS (options.map s.read) := by
  have hnew : s.alloc.2 < s.alloc.1.objects.length := by
    simp [Store.alloc]
  have hdne : defaults ≠ s.alloc.2 := by
    simp only [Store.alloc]
    omega
  have h1 : (s.alloc.1.assign s.alloc.2 (some defaults)).read s.alloc.2 =
      assignFields {} defaultRecord := by
    rw [Store.read_assign_self _ _ _ hnew, Store.read_alloc_new, Store.read_alloc_lt s _ hd, hdef]
  unfold mergeOptions
  simp only []
  cases options with
  | none =>
    simp only [Store.assign, Option.map]
    have := h1
    simp only [Store.assign] at this
    rw [this]
    rfl
  | some b =>
    have hb : b < s.objects.length := ho b rfl
    have hbne : b ≠ s.alloc.2 := by
      simp only [Store.alloc]
      omega
    have hlen : s.alloc.2 < (s.alloc.1.assign s.alloc.2 (some defaults)).objects.length := by
      rw [Store.assign_length]
      exact hnew
    rw [Store.read_assign_self _ _ _ hlen, h1, Store.read_assign_ne _ _ _ _ hbne,
      Store.read_alloc_lt s b hb]
    exact flagsOf_assign_default (s.read b)

theorem checkEven_eq_body (d : Nat) (v : JSValue) (o : Option ClassificationOptions) :
    checkEven d v o = checkEvenBody d v (objectAssign DEFAULT_OPTIONS o) := rfl

theorem checkOdd_eq_body (d : Nat) (v : JSValue) (o : Option ClassificationOptions) :
    checkOdd d v o = checkOddBody d v (objectAssign DEFAULT_OPTIONS o) := rfl

theorem mergeOptions_length (s : Store) (defaults : Nat) (options : Option Nat) :
    (mergeOptions s defaults options).1.objects.length = s.objects.length + 1 := by
  unfold mergeOptions
  simp only []
  rw [Store.assign_length, Store.assign_length, Store.alloc_length]

/-- The outcome of a call on a store is the outcome of the function without a
store on the caller's record. -/
theorem checkOn_outcome (s : Store) (defaults : Nat) (options : Option Nat) (d : Nat)
    (v : JSValue) (hd : defaults < s.objects.length)
    (ho : ∀ a, options = some a → a < s.objects.length)
    (hdef : s.read defaults = defaultRecord) :
    (checkEvenOn s defaults options d v).2 = checkEven d v (options.map s.read) ∧
      (checkOddOn s defaults options d v).2 = checkOdd d v (options.map s.read) := by
  constructor
  · rw [checkEven_eq_body]
    simp only [checkEvenOn]
    rw [mergeOptions_flags s defaults options hd ho hdef]
  · rw [checkOdd_eq_body]
    simp only [checkOddOn]
    rw [mergeOptions_flags s defaults options hd ho hdef]

/-- A call made after a merge has the outcome it would have had before. -/
theorem checkOn_after_merge (s : Store) (defaults : Nat) (options : Option Nat)
    (defaults2 : Nat) (options2 : Option Nat) (d : Nat) (v : JSValue)
    (hd : defaults < s.objects.length)
    (ho : ∀ a, options = some a → a < s.objects.length)
    (hdef : s.read defaults = defaultRecord) :
    (checkEvenOn (mergeOptions s defaults2 options2).1 defaults options d v).2 =
        (checkEvenOn s defaults options d v).2 ∧
      (checkOddOn (mergeOptions s defaults2 options2).1 defaults options d v).2 =
        (checkOddOn s defaults options d v).2 := by
  have hlen := mergeOptions_length s defaults2 options2
  have hd2 : defaults < (mergeOptions s defaults2 options2).1.objects.length := by omega
  have ho2 : ∀ a, options = some a → a < (mergeOptions s defaults2 options2).1.objects.length := by
    intro a ha
    have := ho a ha
    omega
  have hdef2 : (mergeOptions s defaults2 options2).1.read defaults = defaultRecord :=
    (mergeOptions_frame s defaults2 options2 defaults hd).trans hdef
  have hmap : options.map (mergeOptions s defaults2 options2).1.read = options.map s.read := by
    cases options with
    | none => rfl
    | some a =>
      simp only [Option.map]
      rw [mergeOptions_frame s defaults2 options2 a (ho a rfl)]
  have h1 := checkOn_outcome (mergeOptions s defaults2 options2).1 defaults options d v hd2 ho2 hdef2
  have h2 := checkOn_outcome s defaults options d v hd ho hdef
  rw [h1.1, h1.2, h2.1, h2.2, hmap]
  exact ⟨rfl, rfl⟩

/-- C19.  A call of `checkEven` or of `checkOdd`, whether it returns or raises,
leaves every record of the store as it was: the record of the default options
still has its six fields `false` and the caller's record is unchanged.  The
outcome of the call is the one the functions without a store give on the
caller's record, so it does not depend on the calls made before. -/
theorem calls_preserve_store (s : Store) (defaults : Nat) (options : Option Nat) (d : Nat)
    (v : JSValue) (d2 : Nat) (v2 : JSValue) (hd : defaults < s.objects.length)
    (ho : ∀ a, options = some a → a < s.objects.length)
    (hdef : s.read defaults = defaultRecord) :
    (∀ a, a < s.objects.length → (checkEvenOn s defaults options d v).1.read a = s.read a) ∧
      (∀ a, a < s.objects.length → (checkOddOn s defaults options d v).1.read a = s.read a) ∧
      (checkEvenOn s defaults options d v).1.read defaults = defaultRecord ∧
      (checkOddOn s defaults options d v).1.read defaults = defaultRecord ∧
      (checkEvenOn s defaults options d v).2 = checkEven d v (options.map s.read) ∧
      (checkOddOn s defaults options d v).2 = checkOdd d v (options.map s.read) ∧
      (checkEvenOn (checkOddOn s defaults options d v).1 defaults options d2 v2).2 =
        (checkEvenOn s defaults options d2 v2).2 ∧
      (checkOddOn (checkEvenOn s defaults options d v).1 defaults options d2 v2).2 =
        (checkOddOn s defaults options d2 v2).2 := by
  refine ⟨fun a ha => mergeOptions_frame s defaults options a ha,
    fun a ha => mergeOptions_frame s defaults options a ha,
    (mergeOptions_frame s defaults options defaults hd).trans hdef,
    (mergeOptions_frame s defaults options defaults hd).trans hdef,
    (checkOn_outcome s defaults options d v hd ho hdef).1,
    (checkOn_outcome s defaults options d v hd ho hdef).2,
    (checkOn_after_merge s defaults options defaults options d2 v2 hd ho hdef).1,
    (checkOn_after_merge s defaults options defaults options d2 v2 hd ho hdef).2⟩

/-- C19, at a store that holds the default record and a caller's record with
`throwOnNaN` set, for a call of `checkEven` on `NaN`. -/
theorem calls_preserve_store_witness :
    (checkEvenOn { objects := [defaultRecord, { throwOnNaN := some true }] } 0 (some 1) 5
        (.num .nan)).1.read 0 = defaultRecord ∧
      (checkEvenOn { objects := [defaultRecord, { throwOnNaN := some true }] } 0 (some 1) 5
        (.num .nan)).2 = checkEven 5 (.num .nan) (some { throwOnNaN := some true }) :=
  ⟨(calls_preserve_store { objects := [defaultRecord, { throwOnNaN := some true }] } 0 (some 1)
      5 (.num .nan) 5 (.num .nan) (by decide) (by decide) rfl).2.2.1,
    (calls_preserve_store { objects := [defaultRecord, { throwOnNaN := some true }] } 0 (some 1)
      5 (.num .nan) 5 (.num .nan) (by decide) (by decide) rfl).2.2.2.2.1⟩

/-! ## Theorems: numeric strings -/

theorem isDigit_digitChar (d : Nat) (h : d < 10) : isDigit (digitChar d) = true := by
  interval_cases d <;> rfl

theorem radixDigitValue_digitChar (d : Nat) (h : d < 10) :
    radixDigitValue 10 (digitChar d) = some d := by
  interval_cases d <;> rfl

theorem digitsValue_append (l : List Char) (c : Char) :
    digitsValue 10 (l ++ [c]) = 10 * digitsValue 10 l + (radixDigitValue 10 c).getD 0 := by
  simp [digitsValue, List.foldl_append]

/-- The digits of a number are digits, and they spell the number. -/
theorem decimalDigitsAux_spec (fuel n : Nat) (h : n < fuel) :
    decimalDigitsAux fuel n [] ≠ [] ∧
      (∀ c ∈ decimalDigitsAux fuel n [], isDigit c = true) ∧
      digitsValue 10 (decimalDigitsAux fuel n []) = n := by
  induction fuel generalizing n with
  | zero => omega
  | succ f ih =>
    unfold decimalDigitsAux
    by_cases h10 : n < 10
    · rw [if_pos h10]
      refine ⟨by simp, ?_, ?_⟩
      · intro c hc
        simp only [List.mem_singleton] at hc
        rw [hc]
        exact isDigit_digitChar n h10
      · simp [digitsValue, radixDigitValue_digitChar n h10]
    · rw [if_neg h10, decimalDigitsAux_append]
      have hlt : n / 10 < f := by omega
      obtain ⟨_, hall, hval⟩ := ih (n / 10) hlt
      have hm : n % 10 < 10 := Nat.mod_lt _ (by norm_num)
      refine ⟨by simp, ?_, ?_⟩
      · intro c hc
        rcases List.mem_append.mp hc with hc | hc
        · exact hall c hc
        · simp only [List.mem_singleton] at hc
          rw [hc]
          exact isDigit_digitChar _ hm
      · rw [digitsValue_append, hval, radixDigitValue_digitChar _ hm]
        simp only [Option.getD_some]
        omega

theorem decimalDigits_spec (n : Nat) :
    decimalDigits n ≠ [] ∧ (∀ c ∈ decimalDigits n, isDigit c = true) ∧
      digitsValue 10 (decimalDigits n) = n :=
  decimalDigitsAux_spec (n + 1) n (by omega)


theorem dropWhile_of_all_false (p : Char → Bool) (s : List Char)
    (h : ∀ c ∈ s, p c = false) : s.dropWhile p = s := by
  cases s with
  | nil => rfl
  | cons c t => simp [List.dropWhile, h c (List.mem_cons_self c t)]

theorem trim_of_no_whitespace (s : List Char) (h : ∀ c ∈ s, isStrWhiteSpace c = false) :
    trim s = s := by
  unfold trim
  rw [dropWhile_of_all_false _ s h, dropWhile_of_all_false _ s.reverse
    (fun c hc => h c (List.mem_reverse.mp hc)), List.reverse_reverse]

theorem isStrWhiteSpace_of_isDigit (c : Char) (h : isDigit c = true) :
    isStrWhiteSpace c = false := by
  unfold isDigit digitValue at h
  split at h <;> first | rfl | simp at h

theorem takeWhile_of_all (p : Char → Bool) (s : List Char) (h : ∀ c ∈ s, p c = true) :
    s.takeWhile p = s := by
  induction s with
  | nil => rfl
  | cons c t ih =>
    rw [List.takeWhile_cons, h c (List.mem_cons_self c t), if_pos rfl,
      ih (fun x hx => h x (List.mem_cons_of_mem c hx))]

theorem dropWhile_of_all (p : Char → Bool) (s : List Char) (h : ∀ c ∈ s, p c = true) :
    s.dropWhile p = [] := by
  induction s with
  | nil => rfl
  | cons c t ih =>
    rw [List.dropWhile_cons, h c (List.mem_cons_self c t), if_pos rfl,
      ih (fun x hx => h x (List.mem_cons_of_mem c hx))]

/-- A non-empty string of digits is a decimal literal whose value is the number
the digits spell. -/
theorem parseUnsignedDecimal_digits (neg : Bool) (s : List Char) (hne : s ≠ [])
    (h : ∀ c ∈ s, isDigit c = true) :
    parseUnsignedDecimal neg s = roundRat neg (digitsValue 10 s) 1 := by
  have hinf : s ≠ ['I', 'n', 'f', 'i', 'n', 'i', 't', 'y'] := by
    intro he
    have := h 'I' (by rw [he]; simp)
    simp [isDigit, digitValue] at this
  unfold parseUnsignedDecimal
  rw [if_neg hinf]
  simp only [takeWhile_of_all _ s h, dropWhile_of_all _ s h]
  simp [hne]


theorem stringToNumber_digits (s : List Char) (hne : s ≠ [])
    (h : ∀ c ∈ s, isDigit c = true) :
    stringToNumber s = parseUnsignedDecimal false s := by
  unfold stringToNumber
  rw [trim_of_no_whitespace s (fun c hc => isStrWhiteSpace_of_isDigit c (h c hc))]
  split
  · exact absurd rfl hne
  all_goals first
    | rfl
    | (exfalso
       rename_i r
       have h1 := h _ (List.mem_cons_self _ _)
       have h2 := h _ (List.mem_cons_of_mem _ (List.mem_cons_self _ _))
       simp [isDigit, digitValue] at h1 h2)
    | (exfalso
       have h1 := h _ (List.mem_cons_self _ _)
       simp [isDigit, digitValue] at h1)

theorem stringToNumber_minus_digits (s : List Char)
    (h : ∀ c ∈ s, isDigit c = true) :
    stringToNumber ('-' :: s) = parseUnsignedDecimal true s := by
  have hws : ∀ c ∈ '-' :: s, isStrWhiteSpace c = false := by
    intro c hc
    rcases List.mem_cons.mp hc with hc | hc
    · rw [hc]
      rfl
    · exact isStrWhiteSpace_of_isDigit c (h c hc)
  unfold stringToNumber
  rw [trim_of_no_whitespace _ hws]
  split <;> simp_all

theorem log2_one : log2 1 = 0 := rfl

theorem trailingZeros_mul_pow (j fuel n : Nat) (hn : n ≠ 0) (hj : j ≤ fuel) :
    j ≤ trailingZeros fuel (n * 2 ^ j) := by
  induction j generalizing fuel with
  | zero => omega
  | succ j ih =>
    cases fuel with
    | zero => omega
    | succ f =>
      unfold trailingZeros
      have hpos : n * 2 ^ (j + 1) ≠ 0 := by
        have : 0 < 2 ^ (j + 1) := pow_pos (by norm_num) _
        exact Nat.mul_ne_zero hn (by omega)
      have hmod : n * 2 ^ (j + 1) % 2 = 0 := by
        rw [pow_succ, ← Nat.mul_assoc]
        exact Nat.mul_mod_left _ _
      have hdiv : n * 2 ^ (j + 1) / 2 = n * 2 ^ j := by
        rw [pow_succ, ← Nat.mul_assoc]
        exact Nat.mul_div_cancel _ (by norm_num)
      rw [if_pos ⟨hpos, hmod⟩, hdiv]
      have := ih f (by omega)
      omega


theorem roundHalfEven_one (a : Nat) : roundHalfEven a 1 = a := by
  simp [roundHalfEven, Nat.mod_one]

theorem floorLog2Rat_one (n : Nat) (h0 : n ≠ 0) : floorLog2Rat n 1 = (log2 n : Int) := by
  have hge : 1 * 2 ^ (log2 n) ≤ n := by
    rw [one_mul]
    exact pow_log2_le n h0
  have hnn : (0 : Int) ≤ (log2 n : Int) := Int.natCast_nonneg _
  simp only [floorLog2Rat, log2_one, Nat.cast_zero, sub_zero, if_pos hnn, Int.toNat_ofNat,
    decide_eq_true hge, if_true]

/-- A positive integer below `2 ^ 53` is its own rounding. -/
theorem roundRat_small (neg : Bool) (n : Nat) (h0 : n ≠ 0) (h : n < 2 ^ 53) :
    roundRat neg n 1 = .int (if neg then -(n : Int) else (n : Int)) := by
  have hL : log2 n < 53 := log2_lt_of_lt_pow n 53 h0 h
  have hbig : ¬ 2 ^ 1024 ≤ n := by
    have : (2 : Nat) ^ 53 ≤ 2 ^ 1024 := Nat.pow_le_pow_right (by norm_num) (by norm_num)
    omega
  unfold roundRat
  rw [if_neg h0, floorLog2Rat_one n h0]
  have hq : max ((log2 n : Int) - 52) (-1074) = (log2 n : Int) - 52 := max_eq_left (by omega)
  simp only [hq]
  by_cases h52 : log2 n = 52
  · have hq0 : (log2 n : Int) - 52 = 0 := by omega
    simp only [hq0, le_refl, if_true, Int.toNat_zero, pow_zero, mul_one, roundHalfEven_one]
    unfold mkFinite
    simp only [if_neg h0, le_refl, if_true, Int.toNat_zero, pow_zero, mul_one, if_neg hbig]
  · have hneg : ¬ (0 : Int) ≤ (log2 n : Int) - 52 := by omega
    have hj : (-((log2 n : Int) - 52)).toNat = 52 - log2 n := by omega
    simp only [if_neg hneg, hj, roundHalfEven_one]
    have hr0 : n * 2 ^ (52 - log2 n) ≠ 0 :=
      Nat.mul_ne_zero h0 (by have : 0 < 2 ^ (52 - log2 n) := pow_pos (by norm_num) _; omega)
    have htz := trailingZeros_mul_pow (52 - log2 n) 64 n h0 (by omega)
    have hmin : min (trailingZeros 64 (n * 2 ^ (52 - log2 n))) (52 - log2 n) = 52 - log2 n :=
      min_eq_right htz
    have hdiv : n * 2 ^ (52 - log2 n) / 2 ^ (52 - log2 n) = n :=
      Nat.mul_div_cancel _ (pow_pos (by norm_num) _)
    unfold mkFinite
    simp only [if_neg hr0, if_neg hneg, hj, hmin, hdiv, Nat.sub_self, if_true]

theorem roundRat_zero (neg : Bool) (b : Nat) : roundRat neg 0 b = zeroOf neg := by
  simp [roundRat]

/-- The decimal rendering of an integer of magnitude below `2 ^ 53` converts to
that integer. -/
theorem stringToNumber_decimalRendering (k : Int) (h : k.natAbs < 2 ^ 53) :
    stringToNumber (decimalRendering k) = .int k := by
  obtain ⟨hne, hall, hval⟩ := decimalDigits_spec k.natAbs
  unfold decimalRendering
  by_cases hk : k < 0
  · have h0 : k.natAbs ≠ 0 := by omega
    rw [if_pos hk, stringToNumber_minus_digits _ hall, parseUnsignedDecimal_digits _ _ hne hall,
      hval, roundRat_small true _ h0 h]
    simp only [if_true]
    congr 1
    omega
  · rw [if_neg hk, stringToNumber_digits _ hne hall, parseUnsignedDecimal_digits _ _ hne hall,
      hval]
    by_cases h0 : k.natAbs = 0
    · have hk0 : k = 0 := by omega
      rw [h0, roundRat_zero, hk0]
      rfl
    · rw [roundRat_small false _ h0 h]
      simp only [Bool.false_eq_true, if_false]
      congr 1
      omega


/-- On an integer of magnitude below `2 ^ 53` the fallbacks return the parity. -/
theorem alternative_small (i : Int) (h : i.natAbs < 2 ^ 53) :
    checkEvenAlternative (.num (.int i)) = .ok (decide (i % 2 = 0)) ∧
      checkOddAlternative (.num (.int i)) = .ok (decide (i % 2 = 1)) := by
  obtain ⟨pre, hp⟩ := numberToString_int_small i h
  have ha := alternative_of_digit (.num (.int i)) pre (i.natAbs % 10)
    (Nat.mod_lt _ (by norm_num)) (by simp [stringOf, toStringValue, hp])
  have e0 : decide (i.natAbs % 10 % 2 = 0) = decide (i % 2 = 0) := by
    apply decide_eq_decide.mpr
    omega
  have e1 : decide (i.natAbs % 10 % 2 = 1) = decide (i % 2 = 1) := by
    apply decide_eq_decide.mpr
    omega
  rw [ha.1, ha.2, e0, e1]
  exact ⟨rfl, rfl⟩

/-- On an integer of magnitude below `2 ^ 53` the public functions return the
parity, whatever the size of the call stack and the options. -/
theorem checkEven_checkOdd_small (d : Nat) (i : Int) (o : Option ClassificationOptions)
    (h : i.natAbs < 2 ^ 53) :
    checkEven d (.num (.int i)) o = .ok (decide (i % 2 = 0)) ∧
      checkOdd d (.num (.int i)) o = .ok (decide (i % 2 = 1)) := by
  rw [checkEven_integer d (.int i) o rfl, checkOdd_integer d (.int i) o rfl,
    checkEvenInternal_natAbs, checkOddInternal_natAbs]
  have halt := alternative_small i h
  by_cases hfit : 1 ≤ d ∧ i.natAbs ≤ d
  · have hex := internal_exact d i.natAbs h hfit.1 hfit.2
    have e0 : decide (i.natAbs % 2 = 0) = decide (i % 2 = 0) := by
      apply decide_eq_decide.mpr
      omega
    have e1 : decide (i.natAbs % 2 = 1) = decide (i % 2 = 1) := by
      apply decide_eq_decide.mpr
      omega
    rw [hex.1, hex.2, e0, e1]
    exact ⟨rfl, rfl⟩
  · have herr : checkEvenInternal d (.num (.int (i.natAbs : Int))) = .error .stackOverflow ∧
        checkOddInternal d (.num (.int (i.natAbs : Int))) = .error .stackOverflow := by
      cases d with
      | zero => exact ⟨checkEvenInternal_zero _, checkOddInternal_zero _⟩
      | succ d =>
        have hmax : i.natAbs ≤ maxDouble := by
          have := pow53_le_maxDouble
          omega
        exact internal_exhausted (d + 1) i.natAbs (by omega) (by omega) hmax
    rw [herr.1, herr.2, attempt, attempt, halt.1, halt.2]
    exact ⟨rfl, rfl⟩

/-- With `allowNumberStrings` set, `checkEven` on a string is `checkEven` on the
number the string converts to. -/
theorem checkEven_str (d : Nat) (s : List Char) (o : Option ClassificationOptions)
    (ha : (objectAssign DEFAULT_OPTIONS o).allowNumberStrings = true) :
    checkEven d (.str s) o = checkEven d (.num (stringToNumber s)) o := by
  rw [checkEven_num d (stringToNumber s) o]
  unfold checkEven
  simp only [ha, if_true, toNumber]

/-- The firewall never admits a string: with `throwOnNonNumber` and
`throwOnNonFinite` unset its result on a string is `false`. -/
theorem validateInput_str (s : List Char) (m : MergedOptions)
    (h1 : m.throwOnNonNumber = false) (h3 : m.throwOnNonFinite = false) :
    validateInput (.str s) m = .ok false := by
  unfold validateInput
  rw [debugLine_of_toString (.str s) m (fun _ => ⟨s, rfl⟩)]
  simp only [isNaN, isFinite, h1, h3]
  cases isNumber (.str s) { allowInfinite := true, allowNumberStrings := m.allowNumberStrings }
    <;> simp

/-- With only `allowNumberStrings` set, `checkOdd` returns `false` on every string. -/
theorem checkOdd_str (d : Nat) (s : List Char) :
    checkOdd d (.str s) (some { allowNumberStrings := some true }) = .ok false := by
  have hval := validateInput_str s
    (objectAssign DEFAULT_OPTIONS (some { allowNumberStrings := some true })) rfl rfl
  unfold checkOdd
  simp only [hval]

/-- C13, at an input where it fails.  The integer `2 ^ 53 + 1` is odd, yet with
`allowNumberStrings` set `checkEven` returns `true` on its decimal rendering: the
conversion rounds the string to the number `2 ^ 53`. -/
theorem checkEven_rounded_string :
    (2 ^ 53 + 1 : Int) % 2 = 1 ∧
      checkEven 1000 (.str (decimalRendering (2 ^ 53 + 1)))
        (some { allowNumberStrings := some true }) = .ok true := by
  refine ⟨by decide, ?_⟩
  have hnum : stringToNumber (decimalRendering (2 ^ 53 + 1)) = .int ((2 ^ 53 : Nat) : Int) := by
    decide
  have hstr : numberToString (.int ((2 ^ 53 : Nat) : Int)) =
      ['9', '0', '0', '7', '1', '9', '9', '2', '5', '4', '7', '4', '0', '9', '9'] ++
        [digitChar 2] := by
    decide
  have halt := alternative_of_digit (.num (.int ((2 ^ 53 : Nat) : Int)))
    ['9', '0', '0', '7', '1', '9', '9', '2', '5', '4', '7', '4', '0', '9', '9'] 2 (by norm_num)
    (by simp only [stringOf, toStringValue, hstr])
  have hex := internal_exhausted 1000 (2 ^ 53) (by norm_num) (by norm_num) pow53_le_maxDouble
  rw [checkEven_str 1000 (decimalRendering (2 ^ 53 + 1))
    (some { allowNumberStrings := some true }) rfl, hnum,
    checkEven_integer 1000 (.int ((2 ^ 53 : Nat) : Int)) _ rfl, hex.1, attempt, halt.1]
  rfl

/-- C13, amended.  With `allowNumberStrings` set, for every integer `k` of
magnitude below `2 ^ 53`, every size of the call stack and every value of the
other options, `checkEven` on the decimal rendering of `k` returns `true`
exactly when `k` is even. -/
theorem checkEven_decimalRendering (d : Nat) (k : Int) (o : Option ClassificationOptions)
    (hk : k.natAbs < 2 ^ 53)
    (ha : (objectAssign DEFAULT_OPTIONS o).allowNumberStrings = true) :
    checkEven d (.str (decimalRendering k)) o = .ok (decide (k % 2 = 0)) := by
  rw [checkEven_str d _ o ha, stringToNumber_decimalRendering k hk]
  exact (checkEven_checkOdd_small d k o hk).1

/-- C13, amended, at the integer `-10` with a stack of three frames. -/
theorem checkEven_decimalRendering_witness :
    checkEven 3 (.str (decimalRendering (-10))) (some { allowNumberStrings := some true })
      = .ok true :=
  checkEven_decimalRendering 3 (-10) (some { allowNumberStrings := some true })
    (by decide) rfl

/-- C14, at an input where it fails.  The string `11` is the decimal rendering of
an odd integer, yet with `allowNumberStrings` set `checkOdd` returns `false` on
it, for every size of the call stack: the firewall runs on the string itself,
before the conversion.  `checkEven` returns `false` too, so the two results are
not opposite. -/
theorem checkOdd_string_eleven (d : Nat) :
    decimalRendering 11 = ['1', '1'] ∧ (11 : Int) % 2 = 1 ∧
      checkOdd d (.str (decimalRendering 11)) (some { allowNumberStrings := some true })
        = .ok false ∧
      checkEven d (.str (decimalRendering 11)) (some { allowNumberStrings := some true })
        = .ok false := by
  refine ⟨by decide, by decide, checkOdd_str d _, ?_⟩
  rw [checkEven_str d (decimalRendering 11) (some { allowNumberStrings := some true }) rfl,
    stringToNumber_decimalRendering 11 (by decide)]
  exact (checkEven_checkOdd_small d 11 _ (by decide)).1

/-! ## Theorems: the recursion and the specification -/

/-- The recursion of the specification computes the parity. -/
theorem specIsEven_specIsOdd (n : Nat) :
    specIsEven n = decide (n % 2 = 0) ∧ specIsOdd n = decide (n % 2 = 1) := by
  induction n using Nat.strong_induction_on with
  | _ n ih =>
    match n with
    | 0 => exact ⟨rfl, rfl⟩
    | 1 => exact ⟨rfl, rfl⟩
    | m + 2 =>
      have h := ih (m + 1) (by omega)
      rw [specIsEven, specIsOdd, h.1, h.2]
      constructor
      · apply decide_eq_decide.mpr
        omega
      · apply decide_eq_decide.mpr
        omega

theorem abs_int (i : Int) : (JSNumber.int i).abs = .int (i.natAbs : Int) := rfl

/-- C21.  The recursion follows the specification: `checkEvenInternal` returns
`true` at magnitude zero, `false` at magnitude one and otherwise calls
`checkOddInternal` on the magnitude minus one, and `checkOddInternal` does the
opposite.  On a call stack of fewer than `2 ^ 53` frames, whenever the call on a
binary64 integer completes its result is the one of the recursion of the
specification, which is the parity of the integer; and it does complete as soon
as the stack has as many frames as the magnitude (at least one). -/
theorem internal_refines_spec (d : Nat) (i : Int) (b : Bool) (hdepth : d < 2 ^ 53)
    (hd : (JSNumber.int i).isDouble = true) :
    (checkEvenInternal (d + 1) (.num (.int i)) =
        if i.natAbs = 0 then .ok true
        else if i.natAbs = 1 then .ok false
        else checkOddInternal d (.num (subtract (JSNumber.int i).abs number1))) ∧
      (checkOddInternal (d + 1) (.num (.int i)) =
        if i.natAbs = 0 then .ok false
        else if i.natAbs = 1 then .ok true
        else checkEvenInternal d (.num (subtract (JSNumber.int i).abs number1))) ∧
      (checkEvenInternal d (.num (.int i)) = .ok b →
        b = specIsEven i.natAbs ∧ (b = true ↔ i % 2 = 0)) ∧
      (checkOddInternal d (.num (.int i)) = .ok b →
        b = specIsOdd i.natAbs ∧ (b = true ↔ i % 2 = 1)) ∧
      (i.natAbs ≤ d → 1 ≤ d →
        checkEvenInternal d (.num (.int i)) = .ok (specIsEven i.natAbs) ∧
          checkOddInternal d (.num (.int i)) = .ok (specIsOdd i.natAbs)) ∧
      checkEvenInternal (d + 1) (.num .negZero) = .ok true ∧
      checkOddInternal (d + 1) (.num .negZero) = .ok false := by
  have hspec := specIsEven_specIsOdd i.natAbs
  have hcomplete : i.natAbs ≤ d → 1 ≤ d →
      checkEvenInternal d (.num (.int i)) = .ok (decide (i.natAbs % 2 = 0)) ∧
        checkOddInternal d (.num (.int i)) = .ok (decide (i.natAbs % 2 = 1)) := by
    intro hle h1
    rw [checkEvenInternal_natAbs, checkOddInternal_natAbs]
    exact internal_exact d i.natAbs (by omega) h1 hle
  have hfail : ¬ (i.natAbs ≤ d ∧ 1 ≤ d) →
      checkEvenInternal d (.num (.int i)) = .error .stackOverflow ∧
        checkOddInternal d (.num (.int i)) = .error .stackOverflow := by
    intro hn
    rw [checkEvenInternal_natAbs, checkOddInternal_natAbs]
    cases d with
    | zero => exact ⟨checkEvenInternal_zero _, checkOddInternal_zero _⟩
    | succ d =>
      exact internal_exhausted (d + 1) i.natAbs hdepth (by omega) (isDouble_int_le i hd)
  refine ⟨?_, ?_, ?_, ?_, ?_, checkEvenInternal_negZero d, checkOddInternal_negZero d⟩
  · rw [checkEvenInternal_int, abs_int, subtract_int_one]
  · rw [checkOddInternal_int, abs_int, subtract_int_one]
  · intro h
    by_cases hc : i.natAbs ≤ d ∧ 1 ≤ d
    · rw [(hcomplete hc.1 hc.2).1] at h
      have hb : decide (i.natAbs % 2 = 0) = b := Except.ok.inj h
      rw [hspec.1, ← hb]
      refine ⟨rfl, ?_⟩
      rw [decide_eq_true_iff]
      omega
    · rw [(hfail hc).1] at h
      exact absurd h (by simp)
  · intro h
    by_cases hc : i.natAbs ≤ d ∧ 1 ≤ d
    · rw [(hcomplete hc.1 hc.2).2] at h
      have hb : decide (i.natAbs % 2 = 1) = b := Except.ok.inj h
      rw [hspec.2, ← hb]
      refine ⟨rfl, ?_⟩
      rw [decide_eq_true_iff]
      omega
    · rw [(hfail hc).2] at h
      exact absurd h (by simp)
  · intro hle h1
    rw [hspec.1, hspec.2]
    exact hcomplete hle h1

/-- C21, at the integer `-4` with a stack of five frames. -/
theorem internal_refines_spec_witness :
    checkEvenInternal 5 (.num (.int (-4))) = .ok true ∧
      (true = specIsEven (-4 : Int).natAbs ∧ (true = true ↔ (-4 : Int) % 2 = 0)) :=
  ⟨by decide, (internal_refines_spec 5 (-4) true (by norm_num) (by decide)).2.2.1 (by decide)⟩

theorem ofInt_pred_small (n : Nat) (h2 : 2 ≤ n) (hn : n ≤ 2 ^ 53) :
    ofInt ((n : Int) - 1) = .int ((n - 1 : Nat) : Int) := by
  have hmax : n ≤ maxDouble := le_trans hn pow53_le_maxDouble
  rw [(ofInt_pred n h2 hmax).1, roundNat_of_lt (n - 1) (by omega)]

/-- The nested call made from an integer argument. -/
theorem callArgument_succ_int (k : Nat) (x : JSNumber) (j : Int)
    (h : callArgument k x = some (.int j)) :
    callArgument (k + 1) x =
      if j.natAbs = 0 ∨ j.natAbs = 1 then none
      else some (ofInt ((j.natAbs : Int) - 1)) := by
  rw [callArgument, h]
  simp only [passesGuards, isNumber, ISNUMBER_CONFIG, numberOddOrEven, numberIsInteger,
    JSNumber.abs, is0, is1, strictEquals_int, subtract_int_one, Bool.and_self, Bool.not_true,
    Bool.false_eq_true, if_false, Bool.or_eq_true, decide_eq_true_eq]
  have e0 : ((j.natAbs : Int) = 0) = (j.natAbs = 0) := by
    apply propext
    omega
  have e1 : ((j.natAbs : Int) = 1) = (j.natAbs = 1) := by
    apply propext
    omega
  simp only [e0, e1]

/-- On an integer of magnitude at most `2 ^ 53` that fits the stack the
recursion is exact. -/
theorem internal_exact_le (d n : Nat) (hs : n ≤ 2 ^ 53) (h1 : 1 ≤ d) (hn : n ≤ d) :
    checkEvenInternal d (.num (.int (n : Int))) = .ok (decide (n % 2 = 0)) ∧
      checkOddInternal d (.num (.int (n : Int))) = .ok (decide (n % 2 = 1)) := by
  by_cases hlt : n < 2 ^ 53
  · exact internal_exact d n hlt h1 hn
  · have hn53 : n = 2 ^ 53 := by omega
    cases d with
    | zero => omega
    | succ d =>
      have h0 : ¬ n = 0 := by omega
      have h1' : ¬ n = 1 := by omega
      have hex := internal_exact d (n - 1) (by omega) (by omega) (by omega)
      rw [checkEvenInternal_int, checkOddInternal_int, Int.natAbs_ofNat, if_neg h0, if_neg h1',
        if_neg h0, if_neg h1', ofInt_pred_small n (by omega) hs, hex.1, hex.2]
      constructor
      · congr 1
        apply decide_eq_decide.mpr
        omega
      · congr 1
        apply decide_eq_decide.mpr
        omega

/-- The `k`-th nested call started on an integer of magnitude at most `2 ^ 53`
is made on the magnitude minus `k`. -/
theorem callArgument_small (i : Int) (hi : i.natAbs ≤ 2 ^ 53) (k : Nat) (h1 : 1 ≤ k)
    (hk : k < i.natAbs) :
    callArgument k (.int i) = some (.int ((i.natAbs - k : Nat) : Int)) := by
  induction k with
  | zero => omega
  | succ k ih =>
    by_cases hk0 : k = 0
    · subst hk0
      have h := callArgument_succ_int 0 (.int i) i rfl
      rw [h, if_neg (by omega), ofInt_pred_small i.natAbs (by omega) hi]
    · have hprev := ih (by omega) (by omega)
      have h := callArgument_succ_int k (.int i) _ hprev
      rw [h, Int.natAbs_ofNat, if_neg (by omega),
        ofInt_pred_small (i.natAbs - k) (by omega) (by omega)]
      congr 2

/-- C22, at an input where it fails.  The validated integer `1e21` is not
followed by a smaller argument: the nested call is made on `1e21` again, because
`1e21 - 1` rounds to `1e21`, and the recursion ends by exhausting the stack. -/
theorem subtract_1e21 :
    (JSNumber.int (10 ^ 21)).isDouble = true ∧
      validateInput (.num (.int (10 ^ 21))) DEFAULT_OPTIONS = .ok true ∧
      callArgument 1 (.int (10 ^ 21)) = some (.int (10 ^ 21)) ∧
      checkEvenInternal 1000 (.num (.int (10 ^ 21))) = .error .stackOverflow := by
  refine ⟨by decide, by decide, ?_, (internal_1e21 1000).1⟩
  have h := callArgument_succ_int 0 (.int (10 ^ 21)) (10 ^ 21) rfl
  rw [h, ofInt_pred_1e21]
  decide

/-- C22, amended.  For every integer of magnitude `m` at most `2 ^ 53`, the `k`-th
nested call of the recursion is made on `m - k`, for every `k` from one to
`m - 1`, and there is no further call: the recursion returns the parity with a
stack of `m` frames (one frame when `m` is zero), and with fewer frames it
exhausts the stack. -/
theorem recursion_well_founded (i : Int) (hi : i.natAbs ≤ 2 ^ 53) :
    (∀ k, 1 ≤ k → k < i.natAbs →
        callArgument k (.int i) = some (.int ((i.natAbs - k : Nat) : Int))) ∧
      callArgument (max 1 i.natAbs) (.int i) = none ∧
      checkEvenInternal (max 1 i.natAbs) (.num (.int i)) = .ok (decide (i % 2 = 0)) ∧
      checkOddInternal (max 1 i.natAbs) (.num (.int i)) = .ok (decide (i % 2 = 1)) ∧
      (∀ d, d < max 1 i.natAbs →
        checkEvenInternal d (.num (.int i)) = .error .stackOverflow ∧
          checkOddInternal d (.num (.int i)) = .error .stackOverflow) := by
  refine ⟨fun k h1 hk => callArgument_small i hi k h1 hk, ?_, ?_, ?_, ?_⟩
  · by_cases h2 : 2 ≤ i.natAbs
    · have hmax : max 1 i.natAbs = (i.natAbs - 1) + 1 := by omega
      have hprev := callArgument_small i hi (i.natAbs - 1) (by omega) (by omega)
      rw [hmax, callArgument_succ_int _ _ _ hprev, Int.natAbs_ofNat, if_pos (by omega)]
    · have hmax : max 1 i.natAbs = 0 + 1 := by omega
      rw [hmax, callArgument_succ_int 0 (.int i) i rfl, if_pos (by omega)]
  · rw [checkEvenInternal_natAbs, (internal_exact_le _ i.natAbs hi (by omega) (by omega)).1]
    congr 1
    apply decide_eq_decide.mpr
    omega
  · rw [checkOddInternal_natAbs, (internal_exact_le _ i.natAbs hi (by omega) (by omega)).2]
    congr 1
    apply decide_eq_decide.mpr
    omega
  · intro d hd
    rw [checkEvenInternal_natAbs, checkOddInternal_natAbs]
    cases d with
    | zero => exact ⟨checkEvenInternal_zero _, checkOddInternal_zero _⟩
    | succ d =>
      exact internal_exhausted (d + 1) i.natAbs (by omega) (by omega)
        (le_trans hi pow53_le_maxDouble)

/-- C22, amended, at the integer `-5`. -/
theorem recursion_well_founded_witness :
    callArgument 2 (.int (-5)) = some (.int ((((-5 : Int).natAbs - 2 : Nat)) : Int)) ∧
      checkEvenInternal (max 1 (-5 : Int).natAbs) (.num (.int (-5))) =
        .ok (decide ((-5 : Int) % 2 = 0)) ∧
      checkEvenInternal 4 (.num (.int (-5))) = .error .stackOverflow :=
  ⟨(recursion_well_founded (-5) (by decide)).1 2 (by decide) (by decide),
    (recursion_well_founded (-5) (by decide)).2.2.1,
    ((recursion_well_founded (-5) (by decide)).2.2.2.2 4 (by decide)).1⟩

/-- A nested call is made from an integer of magnitude at least two, on the
rounding of the magnitude minus one. -/
theorem callArgument_succ_inv (k : Nat) (x v : JSNumber)
    (h : callArgument (k + 1) x = some v) :
    ∃ j : Int, callArgument k x = some (.int j) ∧ 2 ≤ j.natAbs ∧
      v = ofInt ((j.natAbs : Int) - 1) := by
  rw [callArgument] at h
  cases hprev : callArgument k x with
  | none => simp [hprev] at h
  | some w =>
    cases w with
    | nan => simp [hprev, passesGuards, numberOddOrEven, numberIsInteger] at h
    | inf s => simp [hprev, passesGuards, isNumber, ISNUMBER_CONFIG] at h
    | negZero =>
      simp [hprev, passesGuards, isNumber, numberOddOrEven, numberIsInteger, JSNumber.abs, is0,
        strictEquals_int] at h
    | frac s m e => simp [hprev, passesGuards, numberOddOrEven, numberIsInteger] at h
    | int j =>
      have hs := callArgument_succ_int k x j hprev
      rw [callArgument, hprev] at hs
      rw [hprev] at h
      rw [hs] at h
      by_cases hb : j.natAbs = 0 ∨ j.natAbs = 1
      · rw [if_pos hb] at h
        exact absurd h (by simp)
      · rw [if_neg hb] at h
        exact ⟨j, rfl, by omega, (Option.some.inj h).symm⟩

theorem roundNat_pos (m : Nat) (h : 1 ≤ m) : 1 ≤ roundNat m := by
  by_cases hs : m < 2 ^ 53
  · rw [roundNat_of_lt m hs]
    exact h
  · have := roundNat_ge m (by omega)
    omega

/-- Every nested call started on a binary64 integer is made on a positive
integer that is at most the largest finite number. -/
theorem callArgument_invariant (x : JSNumber)
    (hd : x.isDouble = true) (k : Nat) (v : JSNumber) (h : callArgument k x = some v) :
    (k = 0 ∧ v = x) ∨
      (1 ≤ k ∧ ∃ n : Nat, v = .int (n : Int) ∧ 1 ≤ n ∧ n ≤ maxDouble) := by
  induction k generalizing v with
  | zero =>
    left
    exact ⟨rfl, (Option.some.inj h).symm⟩
  | succ k ih =>
    right
    obtain ⟨j, hprev, h2, hv⟩ := callArgument_succ_inv k x v h
    have hj : j.natAbs ≤ maxDouble := by
      rcases ih (.int j) hprev with ⟨_, hjx⟩ | ⟨_, n, hn, _, hle⟩
      · rw [← hjx] at hd
        exact isDouble_int_le j hd
      · have hjn : j = (n : Int) := JSNumber.int.inj hn
        rw [hjn, Int.natAbs_ofNat]
        exact hle
    have hp := ofInt_pred j.natAbs h2 hj
    exact ⟨by omega, roundNat (j.natAbs - 1), by rw [hv, hp.1],
      roundNat_pos _ (by omega), hp.2⟩

theorem passesGuards_integer (v : JSNumber) (h : v.isInteger = true) :
    passesGuards (.num v) = true := by
  cases v <;> simp_all [JSNumber.isInteger, passesGuards, isNumber, numberOddOrEven,
    numberIsInteger]

/-- The call on the number with `d + k` free frames reaches the `k`-th nested
call with `d` free frames. -/
theorem internal_reaches_callArgument (x : JSNumber) (d k : Nat) (v : JSNumber)
    (h : callArgument k x = some v) :
    checkEvenInternal (d + k) (.num x) =
        (if k % 2 = 0 then checkEvenInternal d (.num v) else checkOddInternal d (.num v)) ∧
      checkOddInternal (d + k) (.num x) =
        (if k % 2 = 0 then checkOddInternal d (.num v) else checkEvenInternal d (.num v)) := by
  induction k generalizing d v with
  | zero =>
    have hv : v = x := (Option.some.inj h).symm
    subst hv
    exact ⟨rfl, rfl⟩
  | succ k ih =>
    obtain ⟨j, hprev, h2, hv⟩ := callArgument_succ_inv k x v h
    have hstep := ih (d + 1) (.int j) hprev
    have h0 : ¬ j.natAbs = 0 := by omega
    have h1 : ¬ j.natAbs = 1 := by omega
    have he : d + (k + 1) = d + 1 + k := by omega
    rw [he, hstep.1, hstep.2, checkEvenInternal_int, checkOddInternal_int, if_neg h0, if_neg h1,
      if_neg h0, if_neg h1, ← hv]
    by_cases hk : k % 2 = 0
    · have hk1 : ¬ (k + 1) % 2 = 0 := by omega
      rw [if_pos hk, if_pos hk, if_neg hk1, if_neg hk1]
      exact ⟨rfl, rfl⟩
    · have hk1 : (k + 1) % 2 = 0 := by omega
      rw [if_neg hk, if_neg hk, if_pos hk1, if_pos hk1]
      exact ⟨rfl, rfl⟩

/-- C24.  For every binary64 integer, every argument of a nested call of the
recursion passes the two guards, and from the first nested call on it is a
positive integer that is at most the largest finite number; the call with
`d + k` free frames is the `k`-th nested call with `d` free frames; and for no
size of the call stack do `checkEvenInternal` and `checkOddInternal` both return
`false`. -/
theorem guards_never_taken (x : JSNumber) (hx : x.isInteger = true)
    (hd : x.isDouble = true) :
    (∀ k v, callArgument k x = some v →
        passesGuards (.num v) = true ∧
          (1 ≤ k → ∃ n : Nat, v = .int (n : Int) ∧ 1 ≤ n ∧ n ≤ maxDouble)) ∧
      (∀ d k v, callArgument k x = some v →
        checkEvenInternal (d + k) (.num x) =
            (if k % 2 = 0 then checkEvenInternal d (.num v)
              else checkOddInternal d (.num v)) ∧
          checkOddInternal (d + k) (.num x) =
            (if k % 2 = 0 then checkOddInternal d (.num v)
              else checkEvenInternal d (.num v))) ∧
      (∀ d, ¬ (checkEvenInternal d (.num x) = .ok false ∧
        checkOddInternal d (.num x) = .ok false)) := by
  refine ⟨?_, fun d k v h => internal_reaches_callArgument x d k v h, ?_⟩
  · intro k v h
    rcases callArgument_invariant x hd k v h with ⟨hk, hv⟩ | ⟨hk, n, hn, h1, hle⟩
    · rw [hv]
      exact ⟨passesGuards_integer x hx, fun h1 => absurd h1 (by omega)⟩
    · exact ⟨by rw [hn]; rfl, fun _ => ⟨n, hn, h1, hle⟩⟩
  · intro d
    cases x with
    | nan => simp [JSNumber.isInteger] at hx
    | inf s => simp [JSNumber.isInteger] at hx
    | frac s m e => simp [JSNumber.isInteger] at hx
    | negZero =>
      cases d with
      | zero => simp [checkEvenInternal_zero]
      | succ d => simp [checkEvenInternal_negZero]
    | int i =>
      rw [checkEvenInternal_natAbs, checkOddInternal_natAbs]
      rcases internal_paired d i.natAbs (isDouble_int_le i hd) with ⟨he, _⟩ | ⟨b, he, ho⟩
      · rw [he]
        simp
      · rw [he, ho]
        cases b <;> simp

/-- C24, at the integer six: its second nested call is made on four. -/
theorem guards_never_taken_witness :
    passesGuards (.num (.int 4)) = true ∧
      ¬ (checkEvenInternal 9 (.num (.int 6)) = .ok false ∧
        checkOddInternal 9 (.num (.int 6)) = .ok false) :=
  ⟨((guards_never_taken (.int 6) rfl (by decide)).1 2 (.int 4) (by decide)).1,
    (guards_never_taken (.int 6) rfl (by decide)).2.2 9⟩

/-! ## Theorems: the default branch of the fallbacks -/

/-- A single character that is not a decimal digit parses to `NaN`. -/
theorem parseInt10_not_digit (c : Char) (h : isDigit c = false) : parseInt10 [c] = .nan := by
  by_cases hm : c = '-'
  · subst hm
    decide
  by_cases hp : c = '+'
  · subst hp
    decide
  have htake : List.takeWhile isDigit [c] = [] := by
    simp [List.takeWhile, h]
  unfold parseInt10
  have ht : List.dropWhile isStrWhiteSpace [c] = [] ∨ List.dropWhile isStrWhiteSpace [c] = [c] := by
    by_cases hw : isStrWhiteSpace c = true
    · left
      simp [List.dropWhile, hw]
    · right
      simp [List.dropWhile, hw]
  rcases ht with ht | ht
  · rw [ht]
    rfl
  · rw [ht]
    simp only []
    split
    · rfl
    · rename_i hne
      exfalso
      apply hne
      split
      · rename_i r heq
        exact absurd (List.cons.inj heq).1 hm
      · rename_i r heq
        exact absurd (List.cons.inj heq).1 hp
      · exact htake

theorem strictEquals_nan (y : JSNumber) : strictEquals .nan y = false := by
  cases y <;> rfl

/-- When the last character of the string of a value is not a decimal digit,
both fallbacks take the default branch. -/
theorem alternative_of_not_digit (v : JSValue) (pre : List Char) (c : Char)
    (hs : stringOf v = .ok (pre ++ [c])) (hc : isDigit c = false) :
    lastDigitOf (pre ++ [c]) = .nan ∧ checkEvenAlternative v = .ok false ∧
      checkOddAlternative v = .ok false := by
  have hl : lastDigitOf (pre ++ [c]) = .nan := by
    rw [lastDigitOf_append, parseInt10_not_digit c hc]
  refine ⟨hl, ?_, ?_⟩
  · unfold checkEvenAlternative
    simp only [hs, hl, strictEquals_nan, Bool.false_eq_true, if_false]
  · unfold checkOddAlternative
    simp only [hs, hl, strictEquals_nan, Bool.false_eq_true, if_false]

/-- C23.  For every value the firewall admits, the string of the value ends with
a decimal digit, the character left by the pop loop parses to that digit, and
the two fallbacks return its parity, so they never both return `false`; and for
every value whose string ends with a character that is not a decimal digit, the
character parses to `NaN` and both fallbacks return `false`. -/
theorem fallback_default_unreachable (v : JSValue) (m : MergedOptions) :
    (validateInput v m = .ok true →
        ∃ pre k, k < 10 ∧ stringOf v = .ok (pre ++ [digitChar k]) ∧
          lastDigitOf (pre ++ [digitChar k]) = .int (k : Int) ∧
          checkEvenAlternative v = .ok (decide (k % 2 = 0)) ∧
          checkOddAlternative v = .ok (decide (k % 2 = 1)) ∧
          ¬ (checkEvenAlternative v = .ok false ∧ checkOddAlternative v = .ok false)) ∧
      (∀ pre c, stringOf v = .ok (pre ++ [c]) → isDigit c = false →
        lastDigitOf (pre ++ [c]) = .nan ∧ checkEvenAlternative v = .ok false ∧
          checkOddAlternative v = .ok false) := by
  refine ⟨?_, fun pre c hs hc => alternative_of_not_digit v pre c hs hc⟩
  intro hv
  obtain ⟨x, hx, hi⟩ := validateInput_sound v m hv
  subst hx
  have hstr : ∃ pre k, k < 10 ∧ numberToString x = pre ++ [digitChar k] := by
    cases x with
    | nan => simp [JSNumber.isInteger] at hi
    | inf s => simp [JSNumber.isInteger] at hi
    | frac s a e => simp [JSNumber.isInteger] at hi
    | negZero => exact ⟨[], 0, by norm_num, rfl⟩
    | int i => exact numberToString_int_last i
  obtain ⟨pre, k, hk, hp⟩ := hstr
  have hs : stringOf (.num x) = .ok (pre ++ [digitChar k]) := by
    simp [stringOf, toStringValue, hp]
  have ha := alternative_of_digit (.num x) pre k hk hs
  refine ⟨pre, k, hk, hs, ?_, ha.1, ha.2, ?_⟩
  · rw [lastDigitOf_append, parseInt10_digitChar k hk]
  · rw [ha.1, ha.2]
    have hcases : k % 2 = 0 ∨ k % 2 = 1 := by omega
    rcases hcases with h | h <;> simp [h]

/-- C23, at the integer `-37` and at `NaN`, whose string ends with `N`. -/
theorem fallback_default_unreachable_witness :
    (∃ pre k, k < 10 ∧ stringOf (.num (.int (-37))) = .ok (pre ++ [digitChar k]) ∧
        lastDigitOf (pre ++ [digitChar k]) = .int (k : Int) ∧
        checkEvenAlternative (.num (.int (-37))) = .ok (decide (k % 2 = 0)) ∧
        checkOddAlternative (.num (.int (-37))) = .ok (decide (k % 2 = 1)) ∧
        ¬ (checkEvenAlternative (.num (.int (-37))) = .ok false ∧
          checkOddAlternative (.num (.int (-37))) = .ok false)) ∧
      (lastDigitOf (['N', 'a'] ++ ['N']) = .nan ∧
        checkEvenAlternative (.num .nan) = .ok false ∧
        checkOddAlternative (.num .nan) = .ok false) :=
  ⟨(fallback_default_unreachable (.num (.int (-37))) DEFAULT_OPTIONS).1 (by decide),
    (fallback_default_unreachable (.num .nan) DEFAULT_OPTIONS).2 ['N', 'a'] 'N' rfl rfl⟩

end NumberClassification
